import Mathlib

/-!
# Image extraction from rendered Kubernetes manifests

A shallow embedding of `pkg/k8s/k8s.go` (the kind resolver `Kind.Get`, the
fourteen extractors behind `ImagesInterface`, `SupportedKinds` and
`containers.getImages`) and of the argument handling of the `get` command in
`cmd/register.go`, followed by the properties proved about them.

Conventions of the embedding:

* a call of `Get` is modelled by the value it returns, or the run-time fault
  that ends it, together with the lines it writes to standard error;
* `yaml.Unmarshal`, `unicode.ToLower` and the order in which `range` walks a
  map belong to the Go runtime and libraries, and are parameters;
* a `[]coreV1.Container` is only ever ranged over and appended to, so it is a
  `List`; the `[]string` of the returned record keeps the difference between
  the nil slice and an allocated one (`Slice`).
-/

set_option linter.dupNamespace false

namespace k8s

/-! ## Go values -/

/-- The errors a `Get` can return: the error of `yaml.Unmarshal`, and the two
error types of `pkg/errors` that `k8s.go` constructs. -/
inductive Error where
  | Unmarshal (msg : String)
  | ImageError (Message : String)
  | GrafanaAPIVersionSupportError (Message : String)
  deriving DecidableEq, Repr

/-- What a call of an extractor's `Get` ends in: `ok img` for `(img, nil)`,
`err e` for `(nil, e)`, and `fault` for a nil-pointer dereference. -/
inductive Result (α : Type) where
  | ok (v : α)
  | err (e : Error)
  | fault
  deriving DecidableEq, Repr

/-- A Go slice, as far as its contents and its nil-ness go. -/
inductive Slice (α : Type) where
  | nil
  | mk (elems : List α)
  deriving DecidableEq, Repr

namespace Slice

/-- The elements of a slice; the nil slice has none. -/
def toList {α : Type} : Slice α → List α
  | nil => []
  | mk l => l

/-- The length of a slice. -/
def len {α : Type} (s : Slice α) : Nat := s.toList.length

/-- The builtin `append(s, xs...)`: appending nothing to the nil slice gives
the nil slice back. -/
def append {α : Type} : Slice α → List α → Slice α
  | nil, [] => nil
  | nil, x :: xs => mk (x :: xs)
  | mk l, xs => mk (l ++ xs)

/-- Whether the slice is the nil slice. -/
def isNil {α : Type} : Slice α → Bool
  | nil => true
  | mk _ => false

end Slice

/-- A value held in an `interface{}` after decoding a document: `null` is the
nil interface, a number is a `float64` (its value is never inspected). -/
inductive Value where
  | null
  | bool (b : Bool)
  | number (q : ℚ)
  | string (s : String)
  | array (xs : List Value)
  | object (kvs : List (String × Value))

/-- A Go `map[string]β`: its entries, no key twice. The nil map is the map
with no entries. -/
structure GoMap (β : Type) where
  entries : List (String × β)
  nodup : (entries.map Prod.fst).Nodup

namespace GoMap

/-- The builtin `len(m)`. -/
def len {β : Type} (m : GoMap β) : Nat := m.entries.length

/-- The keys of the map. -/
def keys {β : Type} (m : GoMap β) : List String := m.entries.map Prod.fst

/-- The lookup behind an index expression `m[k]`. -/
def find {β : Type} (m : GoMap β) (k : String) : Option β := m.entries.lookup k

/-- The map with no entries. -/
def empty {β : Type} : GoMap β := ⟨[], List.nodup_nil⟩

end GoMap

/-- The index expression `m[k]` on a `map[string]interface{}`: a missing key
gives the zero value, the nil interface. -/
def GoMap.index (m : GoMap Value) (k : String) : Value := (m.find k).getD Value.null

/-- The type assertion `value, ok := v.(string)`. -/
def Value.assertString : Value → String × Bool
  | Value.string s => (s, true)
  | _ => ("", false)

/-- One order in which a `range` loop may walk a map: every entry once. Go
leaves the order open, and it may differ from one loop to the next. -/
structure MapRange where
  order : GoMap String → List (String × String)
  perm : ∀ m, (order m).Perm m.entries

/-! ## The `strings` package -/

namespace strings

/-- Lower-casing of one rune: `A`..`Z` by the ASCII rule, the other ASCII
runes unchanged, and `unicode.ToLower` (the parameter `u`) beyond ASCII. -/
def lowerRune (u : Char → Char) (c : Char) : Char :=
  if c.toNat < 128 then
    (if 65 ≤ c.toNat ∧ c.toNat ≤ 90 then Char.ofNat (c.toNat + 32) else c)
  else u c

/-- The function `strings.ToLower`. -/
def ToLower (u : Char → Char) (s : String) : String :=
  String.mk (s.data.map (lowerRune u))

/-- Whether `p` is an initial segment of `s`. -/
def startsWith : List Char → List Char → Bool
  | _, [] => true
  | [], _ :: _ => false
  | a :: s, b :: p => a == b && startsWith s p

/-- Whether `p` occurs in `s` at some position. -/
def occursIn : List Char → List Char → Bool
  | [], p => startsWith [] p
  | a :: s, p => startsWith (a :: s) p || occursIn s p

/-- The function `strings.Contains`. -/
def Contains (s substr : String) : Bool := occursIn s.data substr.data

end strings

/-! ## The decoded manifests -/

/-- Modelled from the spec: `coreV1.EnvVar`, an environment variable of a
container (name and literal value). -/
structure EnvVar where
  Name : String := ""
  Value : String := ""
  deriving DecidableEq, Repr

/-- Modelled from the spec: `coreV1.Container`, the image reference of a
container with its environment variable set. -/
structure Container where
  Name : String := ""
  Image : String := ""
  Env : List EnvVar := []
  deriving DecidableEq, Repr

/-- Modelled from the spec: `metaV1.TypeMeta`, the `kind` and `apiVersion`
written in the manifest. -/
structure TypeMeta where
  Kind : String := ""
  APIVersion : String := ""
  deriving DecidableEq, Repr

/-- Modelled from the spec: `metaV1.ObjectMeta`, of which only the name is
read. -/
structure ObjectMeta where
  Name : String := ""
  deriving DecidableEq, Repr

/-- Modelled from the spec: `coreV1.PodSpec`, the primary containers and the
init-containers of a pod. -/
structure PodSpec where
  InitContainers : List Container := []
  Containers : List Container := []
  deriving DecidableEq, Repr

/-- Modelled from the spec: `coreV1.PodTemplateSpec`. -/
structure PodTemplateSpec where
  Spec : PodSpec := {}
  deriving DecidableEq, Repr

/-- Modelled from the spec: `appsV1.DeploymentSpec`. -/
structure DeploymentSpec where
  Template : PodTemplateSpec := {}
  deriving DecidableEq, Repr

/-- Modelled from the spec: `appsV1.Deployment`. -/
structure Deployments extends TypeMeta, ObjectMeta where
  Spec : DeploymentSpec := {}
  deriving DecidableEq, Repr

/-- Modelled from the spec: `coreV1.ConfigMap`, of which the `data` map is
read. -/
structure ConfigMap extends TypeMeta, ObjectMeta where
  Data : GoMap String := GoMap.empty

/-- Modelled from the spec: `appsV1.StatefulSetSpec`. -/
structure StatefulSetSpec where
  Template : PodTemplateSpec := {}
  deriving DecidableEq, Repr

/-- Modelled from the spec: `appsV1.StatefulSet`. -/
structure StatefulSets extends TypeMeta, ObjectMeta where
  Spec : StatefulSetSpec := {}
  deriving DecidableEq, Repr

/-- Modelled from the spec: `appsV1.DaemonSetSpec`. -/
structure DaemonSetSpec where
  Template : PodTemplateSpec := {}
  deriving DecidableEq, Repr

/-- Modelled from the spec: `appsV1.DaemonSet`. -/
structure DaemonSets extends TypeMeta, ObjectMeta where
  Spec : DaemonSetSpec := {}
  deriving DecidableEq, Repr

/-- Modelled from the spec: `appsV1.ReplicaSetSpec`. -/
structure ReplicaSetSpec where
  Template : PodTemplateSpec := {}
  deriving DecidableEq, Repr

/-- Modelled from the spec: `appsV1.ReplicaSet`. -/
structure ReplicaSets extends TypeMeta, ObjectMeta where
  Spec : ReplicaSetSpec := {}
  deriving DecidableEq, Repr

/-- Modelled from the spec: `batchV1.JobSpec`. -/
structure JobSpec where
  Template : PodTemplateSpec := {}
  deriving DecidableEq, Repr

/-- Modelled from the spec: `batchV1.Job`. -/
structure Job extends TypeMeta, ObjectMeta where
  Spec : JobSpec := {}
  deriving DecidableEq, Repr

/-- Modelled from the spec: `batchV1.JobTemplateSpec`, the nested job template
of a CronJob. -/
structure JobTemplateSpec where
  Spec : JobSpec := {}
  deriving DecidableEq, Repr

/-- Modelled from the spec: `batchV1.CronJobSpec`. -/
structure CronJobSpec where
  JobTemplate : JobTemplateSpec := {}
  deriving DecidableEq, Repr

/-- Modelled from the spec: `batchV1.CronJob`. -/
structure CronJob extends TypeMeta, ObjectMeta where
  Spec : CronJobSpec := {}
  deriving DecidableEq, Repr

/-- Modelled from the spec: `coreV1.Pod`. -/
structure Pod extends TypeMeta, ObjectMeta where
  Spec : PodSpec := {}
  deriving DecidableEq, Repr

/-- Modelled from the spec: `monitoringV1.AlertmanagerSpec`; the top-level
image is an optional scalar (a `*string`). -/
structure AlertmanagerSpec where
  Image : Option String := none
  Containers : List Container := []
  InitContainers : List Container := []
  deriving DecidableEq, Repr

/-- Modelled from the spec: `monitoringV1.Alertmanager`. -/
structure AlertManager extends TypeMeta, ObjectMeta where
  Spec : AlertmanagerSpec := {}
  deriving DecidableEq, Repr

/-- Modelled from the spec: `monitoringV1.PrometheusSpec`; the top-level image
is an optional scalar (a `*string`). -/
structure PrometheusSpec where
  Image : Option String := none
  Containers : List Container := []
  InitContainers : List Container := []
  deriving DecidableEq, Repr

/-- Modelled from the spec: `monitoringV1.Prometheus`. -/
structure Prometheus extends TypeMeta, ObjectMeta where
  Spec : PrometheusSpec := {}
  deriving DecidableEq, Repr

/-- Modelled from the spec: `monitoringV1.ThanosRulerSpec`; here the top-level
image is a plain `string`. -/
structure ThanosRulerSpec where
  Image : String := ""
  Containers : List Container := []
  InitContainers : List Container := []
  deriving DecidableEq, Repr

/-- Modelled from the spec: `monitoringV1.ThanosRuler`. -/
structure ThanosRuler extends TypeMeta, ObjectMeta where
  Spec : ThanosRulerSpec := {}
  deriving DecidableEq, Repr

/-- Modelled from the spec: `grafanaBetaV1.DeploymentV1PodSpec`, the pod spec
of the nested deployment template of a Grafana resource. -/
structure DeploymentV1PodSpec where
  InitContainers : List Container := []
  Containers : List Container := []
  deriving DecidableEq, Repr

/-- Modelled from the spec: `grafanaBetaV1.DeploymentV1PodTemplateSpec`; its
pod spec is optional (a pointer). -/
structure DeploymentV1PodTemplateSpec where
  Spec : Option DeploymentV1PodSpec := none
  deriving DecidableEq, Repr

/-- Modelled from the spec: `grafanaBetaV1.DeploymentV1Spec`; its template is
optional (a pointer). -/
structure DeploymentV1Spec where
  Template : Option DeploymentV1PodTemplateSpec := none
  deriving DecidableEq, Repr

/-- Modelled from the spec: `grafanaBetaV1.DeploymentV1`. -/
structure DeploymentV1 where
  Spec : DeploymentV1Spec := {}
  deriving DecidableEq, Repr

/-- Modelled from the spec: `grafanaBetaV1.GrafanaSpec`; the deployment
override is optional (a pointer). -/
structure GrafanaSpec where
  Deployment : Option DeploymentV1 := none
  deriving DecidableEq, Repr

/-- Modelled from the spec: `grafanaBetaV1.Grafana`. -/
structure Grafana extends TypeMeta, ObjectMeta where
  Spec : GrafanaSpec := {}
  deriving DecidableEq, Repr

namespace typeoverride

/-- Modelled from the spec: `typeoverride.PodSpec` of the operator tools the
Thanos resources are built on. -/
structure PodSpec where
  InitContainers : List Container := []
  Containers : List Container := []
  deriving DecidableEq, Repr

/-- Modelled from the spec: `typeoverride.PodTemplateSpec`. -/
structure PodTemplateSpec where
  Spec : PodSpec := {}
  deriving DecidableEq, Repr

/-- Modelled from the spec: `typeoverride.StatefulsetSpec`. -/
structure StatefulsetSpec where
  Template : PodTemplateSpec := {}
  deriving DecidableEq, Repr

/-- Modelled from the spec: `typeoverride.StatefulSet`, a statefulset
override. -/
structure StatefulSet where
  Spec : StatefulsetSpec := {}
  deriving DecidableEq, Repr

/-- Modelled from the spec: `typeoverride.DeploymentSpec`. -/
structure DeploymentSpec where
  Template : PodTemplateSpec := {}
  deriving DecidableEq, Repr

/-- Modelled from the spec: `typeoverride.Deployment`, a deployment
override. -/
structure Deployment where
  Spec : DeploymentSpec := {}
  deriving DecidableEq, Repr

end typeoverride

/-- Modelled from the spec: `thanosAlphaV1.Rule`, the rule sub-component; its
statefulset override is optional (a pointer). -/
structure Rule where
  StatefulsetOverrides : Option typeoverride.StatefulSet := none
  deriving DecidableEq, Repr

/-- Modelled from the spec: `thanosAlphaV1.Query`, the query sub-component;
its deployment override is optional (a pointer). -/
structure Query where
  DeploymentOverrides : Option typeoverride.Deployment := none
  deriving DecidableEq, Repr

/-- Modelled from the spec: `thanosAlphaV1.StoreGateway`, the store-gateway
sub-component; its deployment override is optional (a pointer). -/
structure StoreGateway where
  DeploymentOverrides : Option typeoverride.Deployment := none
  deriving DecidableEq, Repr

/-- Modelled from the spec: `thanosAlphaV1.QueryFrontend`, the query-frontend
sub-component; its deployment override is optional (a pointer). -/
structure QueryFrontend where
  DeploymentOverrides : Option typeoverride.Deployment := none
  deriving DecidableEq, Repr

/-- Modelled from the spec: `thanosAlphaV1.ThanosSpec`; each of the four
sub-components is optional (a pointer) and may be absent. -/
structure ThanosSpec where
  StoreGateway : Option StoreGateway := none
  Rule : Option Rule := none
  Query : Option Query := none
  QueryFrontend : Option QueryFrontend := none
  deriving DecidableEq, Repr

/-- Modelled from the spec: `thanosAlphaV1.Thanos`, the composite Thanos
resource. -/
structure Thanos extends TypeMeta, ObjectMeta where
  Spec : ThanosSpec := {}
  deriving DecidableEq, Repr

/-- Modelled from the spec: `thanosAlphaV1.ReceiverGroup`; its statefulset
override is optional (a pointer). -/
structure ReceiverGroup where
  StatefulSetOverrides : Option typeoverride.StatefulSet := none
  deriving DecidableEq, Repr

/-- Modelled from the spec: `thanosAlphaV1.ReceiverSpec`, the repeated list of
receiver-groups. -/
structure ReceiverSpec where
  ReceiverGroups : List ReceiverGroup := []
  deriving DecidableEq, Repr

/-- Modelled from the spec: `thanosAlphaV1.Receiver`. -/
structure ThanosReceiver extends TypeMeta, ObjectMeta where
  Spec : ReceiverSpec := {}
  deriving DecidableEq, Repr

/-- The loosely typed top-level mapping `Kind.Get` decodes into. -/
abbrev Kind := GoMap Value

/-! ## The libraries `k8s.go` calls -/

/-- The library functions the extractors call. `Unmarshal*` is
`yaml.Unmarshal` at each decode target: it fails with an error, or succeeds
and leaves the target either pointing at the decoded manifest or (for the
`null` document) set to nil. `ToLower` is `unicode.ToLower` beyond ASCII. -/
structure Lib where
  ToLower : Char → Char
  UnmarshalKind : String → Except String Kind
  UnmarshalConfigMap : String → Except String (Option ConfigMap)
  UnmarshalDeployments : String → Except String (Option Deployments)
  UnmarshalStatefulSets : String → Except String (Option StatefulSets)
  UnmarshalDaemonSets : String → Except String (Option DaemonSets)
  UnmarshalCronJob : String → Except String (Option CronJob)
  UnmarshalJob : String → Except String (Option Job)
  UnmarshalReplicaSets : String → Except String (Option ReplicaSets)
  UnmarshalPod : String → Except String (Option Pod)
  UnmarshalAlertManager : String → Except String (Option AlertManager)
  UnmarshalPrometheus : String → Except String (Option Prometheus)
  UnmarshalThanosRuler : String → Except String (Option ThanosRuler)
  UnmarshalGrafana : String → Except String (Option Grafana)
  UnmarshalThanos : String → Except String (Option Thanos)
  UnmarshalThanosReceiver : String → Except String (Option ThanosReceiver)

/-! ## `k8s.go` -/

def KindDeployment : String := "Deployment"
def KindStatefulSet : String := "StatefulSet"
def KindDaemonSet : String := "DaemonSet"
def KindCronJob : String := "CronJob"
def KindJob : String := "Job"
def KindReplicaSet : String := "ReplicaSet"
def KindPod : String := "Pod"
def KindGrafana : String := "Grafana"
def KindThanos : String := "Thanos"
def KindThanosReceiver : String := "Receiver"
def KindConfigMap : String := "ConfigMap"
def kubeKind : String := "kind"

namespace monitoringV1

/-- Modelled from the spec: the constant `monitoringV1.AlertmanagersKind`,
the tag of the Alertmanager kind. -/
def AlertmanagersKind : String := "Alertmanager"

/-- Modelled from the spec: the constant `monitoringV1.PrometheusesKind`,
the tag of the Prometheus kind. -/
def PrometheusesKind : String := "Prometheus"

/-- Modelled from the spec: the constant `monitoringV1.ThanosRulerKind`,
the tag of the ThanosRuler kind. -/
def ThanosRulerKind : String := "ThanosRuler"

end monitoringV1

/-- The record every extractor returns. -/
structure Image where
  Kind : String
  Name : String
  Image : Slice String
  deriving DecidableEq, Repr

/-- The helper type `containers`. -/
structure containers where
  containers : List Container
  deriving DecidableEq, Repr

/-- A call of `Get`: the lines written to standard error (by the builtin
`println`), and what the call ends in. -/
structure Outcome where
  stderr : List String
  ret : Result Image
  deriving DecidableEq, Repr

/-- The method `containers.getImages`: a fresh `make([]string, 0)`, then one
`append` per container. -/
def containers.getImages (cont : k8s.containers) : Slice String :=
  cont.containers.foldl (fun images container => images.append [container.Image]) (Slice.mk [])

/-- The method `Kind.Get`, returning the pair `(kind, error)`. -/
def Kind.Get (lib : Lib) (dataMap : String) : String × Option Error :=
  match lib.UnmarshalKind dataMap with
  | Except.error e => ("", some (Error.Unmarshal e))
  | Except.ok kindYaml =>
    if kindYaml.len ≠ 0 then
      match (kindYaml.index kubeKind).assertString with
      | (_, false) =>
        ("", some (Error.ImageError "failed to get name from the manifest, 'kind' is not type string"))
      | (value, true) => (value, none)
    else ("", none)

/-- The method `ConfigMap.Get`; `r` is the order in which the `range` loop of
this call walks `cm.Data`. -/
def ConfigMap.Get (lib : Lib) (r : MapRange) (dataMap : String) : Outcome :=
  match lib.UnmarshalConfigMap dataMap with
  | Except.error e => ⟨[], Result.err (Error.Unmarshal e)⟩
  | Except.ok none => ⟨[], Result.fault⟩
  | Except.ok (some cm) =>
    let cmContainers : containers :=
      (r.order cm.Data).foldl
        (fun cmContainers kv =>
          if strings.Contains (strings.ToLower lib.ToLower kv.1) "image" then
            ⟨cmContainers.containers ++ [{ Image := kv.2 }]⟩
          else cmContainers)
        ⟨[]⟩
    ⟨[], Result.ok ⟨KindConfigMap, cm.Name, cmContainers.getImages⟩⟩

/-- The method `Deployments.Get`. The loop state is the pair of the lines
printed so far and `depContainers`. -/
def Deployments.Get (lib : Lib) (dataMap : String) : Outcome :=
  match lib.UnmarshalDeployments dataMap with
  | Except.error e => ⟨[], Result.err (Error.Unmarshal e)⟩
  | Except.ok none => ⟨[], Result.fault⟩
  | Except.ok (some dep) =>
    let depContainers : containers :=
      ⟨dep.Spec.Template.Spec.Containers ++ dep.Spec.Template.Spec.InitContainers⟩
    let st : List String × containers :=
      dep.Spec.Template.Spec.Containers.foldl
        (fun st container =>
          container.Env.foldl
            (fun st ev =>
              (st.1 ++ [ev.Name],
                if strings.Contains (strings.ToLower lib.ToLower ev.Name) "image" then
                  ⟨st.2.containers ++ [{ Image := ev.Value }]⟩
                else st.2))
            st)
        ([], depContainers)
    ⟨st.1, Result.ok ⟨KindDeployment, dep.Name, st.2.getImages⟩⟩

/-- The method `StatefulSets.Get`. -/
def StatefulSets.Get (lib : Lib) (dataMap : String) : Outcome :=
  match lib.UnmarshalStatefulSets dataMap with
  | Except.error e => ⟨[], Result.err (Error.Unmarshal e)⟩
  | Except.ok none => ⟨[], Result.fault⟩
  | Except.ok (some dep) =>
    let depContainers : containers := ⟨dep.Spec.Template.Spec.Containers ++ dep.Spec.Template.Spec.InitContainers⟩
    ⟨[], Result.ok ⟨KindStatefulSet, dep.Name, depContainers.getImages⟩⟩

/-- The method `DaemonSets.Get`. -/
def DaemonSets.Get (lib : Lib) (dataMap : String) : Outcome :=
  match lib.UnmarshalDaemonSets dataMap with
  | Except.error e => ⟨[], Result.err (Error.Unmarshal e)⟩
  | Except.ok none => ⟨[], Result.fault⟩
  | Except.ok (some dep) =>
    let depContainers : containers := ⟨dep.Spec.Template.Spec.Containers ++ dep.Spec.Template.Spec.InitContainers⟩
    ⟨[], Result.ok ⟨KindDaemonSet, dep.Name, depContainers.getImages⟩⟩

/-- The method `CronJob.Get`. -/
def CronJob.Get (lib : Lib) (dataMap : String) : Outcome :=
  match lib.UnmarshalCronJob dataMap with
  | Except.error e => ⟨[], Result.err (Error.Unmarshal e)⟩
  | Except.ok none => ⟨[], Result.fault⟩
  | Except.ok (some dep) =>
    let depContainers : containers := ⟨dep.Spec.JobTemplate.Spec.Template.Spec.Containers ++ dep.Spec.JobTemplate.Spec.Template.Spec.InitContainers⟩
    ⟨[], Result.ok ⟨KindCronJob, dep.Name, depContainers.getImages⟩⟩

/-- The method `Job.Get`. -/
def Job.Get (lib : Lib) (dataMap : String) : Outcome :=
  match lib.UnmarshalJob dataMap with
  | Except.error e => ⟨[], Result.err (Error.Unmarshal e)⟩
  | Except.ok none => ⟨[], Result.fault⟩
  | Except.ok (some dep) =>
    let depContainers : containers := ⟨dep.Spec.Template.Spec.Containers ++ dep.Spec.Template.Spec.InitContainers⟩
    ⟨[], Result.ok ⟨KindJob, dep.Name, depContainers.getImages⟩⟩

/-- The method `ReplicaSets.Get`. -/
def ReplicaSets.Get (lib : Lib) (dataMap : String) : Outcome :=
  match lib.UnmarshalReplicaSets dataMap with
  | Except.error e => ⟨[], Result.err (Error.Unmarshal e)⟩
  | Except.ok none => ⟨[], Result.fault⟩
  | Except.ok (some dep) =>
    let depContainers : containers := ⟨dep.Spec.Template.Spec.Containers ++ dep.Spec.Template.Spec.InitContainers⟩
    ⟨[], Result.ok ⟨KindReplicaSet, dep.Name, depContainers.getImages⟩⟩

/-- The method `Pod.Get`. -/
def Pod.Get (lib : Lib) (dataMap : String) : Outcome :=
  match lib.UnmarshalPod dataMap with
  | Except.error e => ⟨[], Result.err (Error.Unmarshal e)⟩
  | Except.ok none => ⟨[], Result.fault⟩
  | Except.ok (some dep) =>
    let depContainers : containers := ⟨dep.Spec.Containers ++ dep.Spec.InitContainers⟩
    ⟨[], Result.ok ⟨KindPod, dep.Name, depContainers.getImages⟩⟩

/-- The method `AlertManager.Get`; `*dep.Spec.Image` faults on a nil
pointer. -/
def AlertManager.Get (lib : Lib) (dataMap : String) : Outcome :=
  match lib.UnmarshalAlertManager dataMap with
  | Except.error e => ⟨[], Result.err (Error.Unmarshal e)⟩
  | Except.ok none => ⟨[], Result.fault⟩
  | Except.ok (some dep) =>
    match dep.Spec.Image with
    | none => ⟨[], Result.fault⟩
    | some image => ⟨[], Result.ok ⟨monitoringV1.AlertmanagersKind, dep.Name, Slice.mk [image]⟩⟩

/-- The method `Prometheus.Get`; `imageNames` starts as the nil slice. -/
def Prometheus.Get (lib : Lib) (dataMap : String) : Outcome :=
  match lib.UnmarshalPrometheus dataMap with
  | Except.error e => ⟨[], Result.err (Error.Unmarshal e)⟩
  | Except.ok none => ⟨[], Result.fault⟩
  | Except.ok (some dep) =>
    let imageNames : Slice String := Slice.nil
    let depContainers : containers := ⟨dep.Spec.Containers ++ dep.Spec.InitContainers⟩
    let imageNames := imageNames.append depContainers.getImages.toList
    match dep.Spec.Image with
    | none => ⟨[], Result.fault⟩
    | some image =>
      let imageNames := imageNames.append [image]
      ⟨[], Result.ok ⟨monitoringV1.PrometheusesKind, dep.Name, imageNames⟩⟩

/-- The method `ThanosRuler.Get`; `imageNames` starts as the nil slice. -/
def ThanosRuler.Get (lib : Lib) (dataMap : String) : Outcome :=
  match lib.UnmarshalThanosRuler dataMap with
  | Except.error e => ⟨[], Result.err (Error.Unmarshal e)⟩
  | Except.ok none => ⟨[], Result.fault⟩
  | Except.ok (some dep) =>
    let imageNames : Slice String := Slice.nil
    let depContainers : containers := ⟨dep.Spec.Containers ++ dep.Spec.InitContainers⟩
    let imageNames := imageNames.append depContainers.getImages.toList
    let imageNames := imageNames.append [dep.Spec.Image]
    ⟨[], Result.ok ⟨monitoringV1.ThanosRulerKind, dep.Name, imageNames⟩⟩

/-- The method `Grafana.Get`. The path `dep.Spec.Deployment.Spec.Template.Spec`
goes through three pointers; reading the containers faults if one is nil. -/
def Grafana.Get (lib : Lib) (dataMap : String) : Outcome :=
  match lib.UnmarshalGrafana dataMap with
  | Except.error e => ⟨[], Result.err (Error.Unmarshal e)⟩
  | Except.ok none => ⟨[], Result.fault⟩
  | Except.ok (some dep) =>
    if dep.APIVersion = "integreatly.org/v1alpha1" then
      ⟨[], Result.err (Error.GrafanaAPIVersionSupportError
        ("plugin supports the latest api version and '" ++ dep.APIVersion ++ "' is not supported"))⟩
    else
      match (dep.Spec.Deployment.bind (fun d => d.Spec.Template)).bind (fun t => t.Spec) with
      | none => ⟨[], Result.fault⟩
      | some grafanaDeployment =>
        let depContainers : containers :=
          ⟨grafanaDeployment.Containers ++ grafanaDeployment.InitContainers⟩
        ⟨[], Result.ok ⟨KindGrafana, dep.Name, depContainers.getImages⟩⟩

/-- The method `Thanos.Get`. Each of the four paths goes through two pointers
(the sub-component and its override); the call faults if one of them is
nil. -/
def Thanos.Get (lib : Lib) (dataMap : String) : Outcome :=
  match lib.UnmarshalThanos dataMap with
  | Except.error e => ⟨[], Result.err (Error.Unmarshal e)⟩
  | Except.ok none => ⟨[], Result.fault⟩
  | Except.ok (some dep) =>
    match dep.Spec.Rule.bind (fun c => c.StatefulsetOverrides),
      dep.Spec.Query.bind (fun c => c.DeploymentOverrides),
      dep.Spec.StoreGateway.bind (fun c => c.DeploymentOverrides),
      dep.Spec.QueryFrontend.bind (fun c => c.DeploymentOverrides) with
    | some rule, some query, some storeGateway, some queryFrontend =>
      let thanosContainers : List Container := []
      let thanosContainers := thanosContainers ++ rule.Spec.Template.Spec.Containers
      let thanosContainers := thanosContainers ++ rule.Spec.Template.Spec.InitContainers
      let thanosContainers := thanosContainers ++ query.Spec.Template.Spec.Containers
      let thanosContainers := thanosContainers ++ query.Spec.Template.Spec.InitContainers
      let thanosContainers := thanosContainers ++ storeGateway.Spec.Template.Spec.Containers
      let thanosContainers := thanosContainers ++ storeGateway.Spec.Template.Spec.InitContainers
      let thanosContainers := thanosContainers ++ queryFrontend.Spec.Template.Spec.Containers
      let thanosContainers := thanosContainers ++ queryFrontend.Spec.Template.Spec.InitContainers
      let depContainers : containers := ⟨thanosContainers⟩
      ⟨[], Result.ok ⟨KindThanos, dep.Name, depContainers.getImages⟩⟩
    | _, _, _, _ => ⟨[], Result.fault⟩

/-- The method `ThanosReceiver.Get`. The loop state is
`receiverGroupTotalContainers`, or `none` once a receiver-group without a
statefulset override has made the call fault. -/
def ThanosReceiver.Get (lib : Lib) (dataMap : String) : Outcome :=
  match lib.UnmarshalThanosReceiver dataMap with
  | Except.error e => ⟨[], Result.err (Error.Unmarshal e)⟩
  | Except.ok none => ⟨[], Result.fault⟩
  | Except.ok (some dep) =>
    let total : Option (List Container) :=
      dep.Spec.ReceiverGroups.foldl
        (fun acc receiverGroup =>
          match acc, receiverGroup.StatefulSetOverrides with
          | some receiverGroupTotalContainers, some o =>
            some (receiverGroupTotalContainers ++ o.Spec.Template.Spec.Containers
              ++ o.Spec.Template.Spec.InitContainers)
          | _, _ => none)
        (some [])
    match total with
    | none => ⟨[], Result.fault⟩
    | some receiverGroupTotalContainers =>
      let depContainers : containers := ⟨receiverGroupTotalContainers⟩
      ⟨[], Result.ok ⟨KindThanosReceiver, dep.Name, depContainers.getImages⟩⟩

/-- The interface `ImagesInterface`: one case per type that implements it. -/
inductive ImagesInterface where
  | Deployments
  | ConfigMap
  | StatefulSets
  | DaemonSets
  | ReplicaSets
  | CronJob
  | Job
  | Pod
  | AlertManager
  | Prometheus
  | ThanosRuler
  | Grafana
  | Thanos
  | ThanosReceiver
  deriving DecidableEq, Repr

def NewDeployment : ImagesInterface := ImagesInterface.Deployments
def NewConfigMap : ImagesInterface := ImagesInterface.ConfigMap
def NewStatefulSet : ImagesInterface := ImagesInterface.StatefulSets
def NewDaemonSet : ImagesInterface := ImagesInterface.DaemonSets
def NewReplicaSets : ImagesInterface := ImagesInterface.ReplicaSets
def NewCronjob : ImagesInterface := ImagesInterface.CronJob
def NewJob : ImagesInterface := ImagesInterface.Job
def NewPod : ImagesInterface := ImagesInterface.Pod
def NewAlertManager : ImagesInterface := ImagesInterface.AlertManager
def NewPrometheus : ImagesInterface := ImagesInterface.Prometheus
def NewThanosRuler : ImagesInterface := ImagesInterface.ThanosRuler
def NewGrafana : ImagesInterface := ImagesInterface.Grafana
def NewThanos : ImagesInterface := ImagesInterface.Thanos
def NewThanosReceiver : ImagesInterface := ImagesInterface.ThanosReceiver

/-- The interface method `Get`, dispatched on the implementing type. -/
def ImagesInterface.Get (lib : Lib) (r : MapRange) : ImagesInterface → String → Outcome
  | ImagesInterface.Deployments, dataMap => k8s.Deployments.Get lib dataMap
  | ImagesInterface.ConfigMap, dataMap => k8s.ConfigMap.Get lib r dataMap
  | ImagesInterface.StatefulSets, dataMap => k8s.StatefulSets.Get lib dataMap
  | ImagesInterface.DaemonSets, dataMap => k8s.DaemonSets.Get lib dataMap
  | ImagesInterface.ReplicaSets, dataMap => k8s.ReplicaSets.Get lib dataMap
  | ImagesInterface.CronJob, dataMap => k8s.CronJob.Get lib dataMap
  | ImagesInterface.Job, dataMap => k8s.Job.Get lib dataMap
  | ImagesInterface.Pod, dataMap => k8s.Pod.Get lib dataMap
  | ImagesInterface.AlertManager, dataMap => k8s.AlertManager.Get lib dataMap
  | ImagesInterface.Prometheus, dataMap => k8s.Prometheus.Get lib dataMap
  | ImagesInterface.ThanosRuler, dataMap => k8s.ThanosRuler.Get lib dataMap
  | ImagesInterface.Grafana, dataMap => k8s.Grafana.Get lib dataMap
  | ImagesInterface.Thanos, dataMap => k8s.Thanos.Get lib dataMap
  | ImagesInterface.ThanosReceiver, dataMap => k8s.ThanosReceiver.Get lib dataMap

/-- The function `SupportedKinds`. -/
def SupportedKinds : List String :=
  [KindDeployment, KindStatefulSet, KindDaemonSet,
    KindCronJob, KindJob, KindReplicaSet, KindPod,
    monitoringV1.AlertmanagersKind, monitoringV1.PrometheusesKind, monitoringV1.ThanosRulerKind,
    KindGrafana, KindThanos, KindThanosReceiver, KindConfigMap]

/-! ## Definitions used to state the properties -/

/-- The values of the environment variables of the containers `cs`, container
by container and in declaration order, whose lower-cased name contains
`image`. -/
def imageEnvValues (lib : Lib) : List Container → List String
  | [] => []
  | c :: cs =>
    ((c.Env.filter (fun ev => strings.Contains (strings.ToLower lib.ToLower ev.Name) "image")).map
      EnvVar.Value) ++ imageEnvValues lib cs

/-- The names of all environment variables of the containers `cs`, container
by container and in declaration order. -/
def envNames : List Container → List String
  | [] => []
  | c :: cs => c.Env.map EnvVar.Name ++ envNames cs

/-- The containers the environment loop of `Deployments.Get` appends: one per
environment variable of `cs` whose lower-cased name contains `image`, holding
its value as image. -/
def envContainers (lib : Lib) : List Container → List Container
  | [] => []
  | c :: cs =>
    ((c.Env.filter (fun ev => strings.Contains (strings.ToLower lib.ToLower ev.Name) "image")).map
      (fun ev => ({ Image := ev.Value } : Container))) ++ envContainers lib cs

/-! ## Concrete libraries and manifests -/

/-- A library whose every decode fails and whose `unicode.ToLower` is the
identity; the examples below override single decoders of it. -/
def Lib.failing : Lib where
  ToLower := id
  UnmarshalKind := fun _ => Except.error "decode error"
  UnmarshalConfigMap := fun _ => Except.error "decode error"
  UnmarshalDeployments := fun _ => Except.error "decode error"
  UnmarshalStatefulSets := fun _ => Except.error "decode error"
  UnmarshalDaemonSets := fun _ => Except.error "decode error"
  UnmarshalCronJob := fun _ => Except.error "decode error"
  UnmarshalJob := fun _ => Except.error "decode error"
  UnmarshalReplicaSets := fun _ => Except.error "decode error"
  UnmarshalPod := fun _ => Except.error "decode error"
  UnmarshalAlertManager := fun _ => Except.error "decode error"
  UnmarshalPrometheus := fun _ => Except.error "decode error"
  UnmarshalThanosRuler := fun _ => Except.error "decode error"
  UnmarshalGrafana := fun _ => Except.error "decode error"
  UnmarshalThanos := fun _ => Except.error "decode error"
  UnmarshalThanosReceiver := fun _ => Except.error "decode error"

/-- A Deployment `web` with containers `a` (which declares the variables
`SIDECAR_IMAGE` and `PATH`) and `b`, and init-container `c`. -/
def webDeployment : Deployments :=
  { Kind := "Deployment", APIVersion := "apps/v1", Name := "web",
    Spec := { Template := { Spec :=
      { Containers :=
          [{ Name := "a", Image := "a",
             Env := [{ Name := "SIDECAR_IMAGE", Value := "s" }, { Name := "PATH", Value := "/bin" }] },
           { Name := "b", Image := "b" }],
        InitContainers := [{ Name := "c", Image := "c" }] } } } }

/-- A library that decodes every text to `webDeployment`. -/
def webLib : Lib :=
  { Lib.failing with UnmarshalDeployments := fun _ => Except.ok (some webDeployment) }

/-- A Deployment `job` whose only image-like variable is declared by its
init-container. -/
def initEnvDeployment : Deployments :=
  { Kind := "Deployment", APIVersion := "apps/v1", Name := "job",
    Spec := { Template := { Spec :=
      { Containers := [{ Name := "main", Image := "app" }],
        InitContainers :=
          [{ Name := "setup", Image := "busybox",
             Env := [{ Name := "HELPER_IMAGE", Value := "helper" }] }] } } } }

/-- A library that decodes every text to `initEnvDeployment`. -/
def initEnvLib : Lib :=
  { Lib.failing with UnmarshalDeployments := fun _ => Except.ok (some initEnvDeployment) }

/-- The ConfigMap `settings` with data
`{"image-a": "x", "other": "y", "IMAGE_B": "z"}`. -/
def settingsConfigMap : ConfigMap :=
  { Kind := "ConfigMap", APIVersion := "v1", Name := "settings",
    Data := ⟨[("image-a", "x"), ("other", "y"), ("IMAGE_B", "z")], by decide⟩ }

/-- A library that decodes every text to `settingsConfigMap`. -/
def settingsLib : Lib :=
  { Lib.failing with UnmarshalConfigMap := fun _ => Except.ok (some settingsConfigMap) }

/-- The iteration order that walks a map in the order its entries are listed. -/
def MapRange.listed : MapRange := ⟨fun m => m.entries, fun _ => List.Perm.refl _⟩

/-- The iteration order that walks a map in the reverse of the order its
entries are listed. -/
def MapRange.reversed : MapRange := ⟨fun m => m.entries.reverse, fun _ => List.reverse_perm _⟩

/-- A deployment override with the single container image `image`. -/
def deploymentOverride (image : String) : typeoverride.Deployment :=
  { Spec := { Template := { Spec := { Containers := [{ Image := image }] } } } }

/-- A statefulset override with the single container image `image`. -/
def statefulSetOverride (image : String) : typeoverride.StatefulSet :=
  { Spec := { Template := { Spec := { Containers := [{ Image := image }] } } } }

/-- A composite Thanos manifest in which all four sub-component overrides are
present, each with containers and init-containers. -/
def fullThanos : Thanos :=
  { Kind := "Thanos", APIVersion := "monitoring.banzaicloud.io/v1alpha1", Name := "thanos",
    Spec :=
      { Rule := some { StatefulsetOverrides := some { Spec := { Template := { Spec :=
          { Containers := [{ Image := "r1" }, { Image := "r2" }],
            InitContainers := [{ Image := "ri" }] } } } } },
        Query := some { DeploymentOverrides := some { Spec := { Template := { Spec :=
          { Containers := [{ Image := "q1" }], InitContainers := [{ Image := "qi" }] } } } } },
        StoreGateway := some { DeploymentOverrides := some { Spec := { Template := { Spec :=
          { Containers := [{ Image := "s1" }], InitContainers := [{ Image := "si" }] } } } } },
        QueryFrontend := some { DeploymentOverrides := some { Spec := { Template := { Spec :=
          { Containers := [{ Image := "f1" }], InitContainers := [{ Image := "fi" }] } } } } } } }

/-- A composite Thanos manifest with only the rule sub-component. -/
def ruleOnlyThanos : Thanos :=
  { Kind := "Thanos", Name := "thanos",
    Spec := { Rule := some { StatefulsetOverrides := some (statefulSetOverride "rule:v1") } } }

/-- A composite Thanos manifest with only the query sub-component. -/
def queryOnlyThanos : Thanos :=
  { Kind := "Thanos", Name := "thanos",
    Spec := { Query := some { DeploymentOverrides := some (deploymentOverride "query:v1") } } }

/-- A composite Thanos manifest with only the store-gateway sub-component. -/
def storeOnlyThanos : Thanos :=
  { Kind := "Thanos", Name := "thanos",
    Spec := { StoreGateway := some { DeploymentOverrides := some (deploymentOverride "store:v1") } } }

/-- A composite Thanos manifest with only the query-frontend sub-component. -/
def frontendOnlyThanos : Thanos :=
  { Kind := "Thanos", Name := "thanos",
    Spec := { QueryFrontend := some { DeploymentOverrides := some (deploymentOverride "front:v1") } } }

/-- A library that decodes every text to the Thanos manifest `t`. -/
def thanosLib (t : Thanos) : Lib :=
  { Lib.failing with UnmarshalThanos := fun _ => Except.ok (some t) }

/-- A Grafana manifest of API version `apiVersion` whose nested deployment
template has container `grafana:10` and init-container `plugins:1`. -/
def grafanaManifest (apiVersion : String) : Grafana :=
  { Kind := "Grafana", APIVersion := apiVersion, Name := "dashboards",
    Spec := { Deployment := some { Spec := { Template := some { Spec := some {
      Containers := [{ Image := "grafana:10" }],
      InitContainers := [{ Image := "plugins:1" }] } } } } } }

/-- A library that decodes every text to the Grafana manifest `g`. -/
def grafanaLib (g : Grafana) : Lib :=
  { Lib.failing with UnmarshalGrafana := fun _ => Except.ok (some g) }

/-- A library that decodes every text to the top-level mapping with the
entries `kvs` when no key occurs twice in them, and fails otherwise. -/
def kindLib (kvs : List (String × Value)) : Lib :=
  { Lib.failing with
    UnmarshalKind := fun _ =>
      if h : (kvs.map Prod.fst).Nodup then Except.ok ⟨kvs, h⟩ else Except.error "duplicate key" }

/-- The canonical tag of each extractor, in the words of the specification:
the kind it extracts. -/
def ImagesInterface.canonicalKind : ImagesInterface → String
  | ImagesInterface.Deployments => "Deployment"
  | ImagesInterface.StatefulSets => "StatefulSet"
  | ImagesInterface.DaemonSets => "DaemonSet"
  | ImagesInterface.CronJob => "CronJob"
  | ImagesInterface.Job => "Job"
  | ImagesInterface.ReplicaSets => "ReplicaSet"
  | ImagesInterface.Pod => "Pod"
  | ImagesInterface.AlertManager => "Alertmanager"
  | ImagesInterface.Prometheus => "Prometheus"
  | ImagesInterface.ThanosRuler => "ThanosRuler"
  | ImagesInterface.Grafana => "Grafana"
  | ImagesInterface.Thanos => "Thanos"
  | ImagesInterface.ThanosReceiver => "Receiver"
  | ImagesInterface.ConfigMap => "ConfigMap"

/-- A pod spec with containers `app` (declaring the variable `IMAGE_TAG`) and
`proxy`, and init-container `migrate`. -/
def workerPodSpec : PodSpec :=
  { Containers :=
      [{ Name := "app", Image := "app:1", Env := [{ Name := "IMAGE_TAG", Value := "hidden:9" }] },
       { Name := "proxy", Image := "proxy:2" }],
    InitContainers := [{ Name := "migrate", Image := "migrate:3" }] }

/-- A library that decodes every text, at each of the six workload targets
below, to a manifest named `worker` whose pod spec is `workerPodSpec`. -/
def workerLib : Lib :=
  { Lib.failing with
    UnmarshalStatefulSets := fun _ => Except.ok (some
      { Kind := "StatefulSet", Name := "worker", Spec := { Template := { Spec := workerPodSpec } } })
    UnmarshalDaemonSets := fun _ => Except.ok (some
      { Kind := "DaemonSet", Name := "worker", Spec := { Template := { Spec := workerPodSpec } } })
    UnmarshalReplicaSets := fun _ => Except.ok (some
      { Kind := "ReplicaSet", Name := "worker", Spec := { Template := { Spec := workerPodSpec } } })
    UnmarshalJob := fun _ => Except.ok (some
      { Kind := "Job", Name := "worker", Spec := { Template := { Spec := workerPodSpec } } })
    UnmarshalPod := fun _ => Except.ok (some
      { Kind := "Pod", Name := "worker", Spec := workerPodSpec })
    UnmarshalCronJob := fun _ => Except.ok (some
      { Kind := "CronJob", Name := "worker",
        Spec := { JobTemplate := { Spec := { Template := { Spec := workerPodSpec } } } } }) }

/-- A Prometheus manifest with one container, one init-container and the
top-level image `image`. -/
def prometheusManifest (image : Option String) : Prometheus :=
  { Kind := "Prometheus", Name := "metrics",
    Spec := { Image := image, Containers := [{ Image := "sidecar:1" }],
              InitContainers := [{ Image := "init:1" }] } }

/-- A ThanosRuler manifest without containers, with the top-level image
`thanos:v0.30`. -/
def rulerManifest : ThanosRuler :=
  { Kind := "ThanosRuler", Name := "ruler", Spec := { Image := "thanos:v0.30" } }

/-- An Alertmanager manifest that declares a container and an init-container,
with the top-level image `image`. -/
def alertmanagerManifest (image : Option String) : AlertManager :=
  { Kind := "Alertmanager", Name := "alerts",
    Spec := { Image := image, Containers := [{ Image := "sidecar:1" }],
              InitContainers := [{ Image := "init:1" }] } }

/-- A library that decodes every text to the Prometheus, ThanosRuler and
Alertmanager manifests above, with the top-level image `image`. -/
def monitoringLib (image : Option String) : Lib :=
  { Lib.failing with
    UnmarshalPrometheus := fun _ => Except.ok (some (prometheusManifest image))
    UnmarshalThanosRuler := fun _ => Except.ok (some rulerManifest)
    UnmarshalAlertManager := fun _ => Except.ok (some (alertmanagerManifest image)) }

/-- The images of the receiver-groups `gs`, in the words of the
specification: group by group in list order, the container images of the
statefulset override of the group followed by its init-container images (a
group without override has none). -/
def receiverGroupImages : List ReceiverGroup → List String
  | [] => []
  | g :: gs =>
    (match g.StatefulSetOverrides with
      | some o =>
        o.Spec.Template.Spec.Containers.map Container.Image
          ++ o.Spec.Template.Spec.InitContainers.map Container.Image
      | none => [])
    ++ receiverGroupImages gs

/-- A Thanos Receiver manifest with two receiver-groups. -/
def receiverManifest : ThanosReceiver :=
  { Kind := "Receiver", Name := "ingest",
    Spec := { ReceiverGroups :=
      [{ StatefulSetOverrides := some { Spec := { Template := { Spec :=
          { Containers := [{ Image := "g1" }], InitContainers := [{ Image := "g1-init" }] } } } } },
       { StatefulSetOverrides := some (statefulSetOverride "g2") }] } }

/-- A library that decodes every text to the Receiver manifest `t`. -/
def receiverLib (t : ThanosReceiver) : Lib :=
  { Lib.failing with UnmarshalThanosReceiver := fun _ => Except.ok (some t) }

/-- A Deployment `idle` without containers. -/
def idleDeployment : Deployments :=
  { Kind := "Deployment", APIVersion := "apps/v1", Name := "idle" }

/-- A library that decodes every text to `idleDeployment`. -/
def idleLib : Lib :=
  { Lib.failing with UnmarshalDeployments := fun _ => Except.ok (some idleDeployment) }

end k8s

/-! ## `cmd/register.go` -/

namespace pkg

/-- Modelled from the spec: `pkg.Images`, the package-level options value of
the surrounding command line. Of its fields, the flags `register.go` reads and
the release and chart its setters store are kept; `SetLogger` and `SetWriter`
change none of them. -/
structure Images where
  FromRelease : Bool := false
  JSON : Bool := false
  YAML : Bool := false
  Table : Bool := false
  release : String := ""
  chart : String := ""
  deriving DecidableEq, Repr

/-- Modelled from the spec: the method `SetRelease`, which stores the release
name. -/
def Images.SetRelease (images : Images) (release : String) : Images :=
  { images with release := release }

/-- Modelled from the spec: the method `SetChart`, which stores the chart
path. -/
def Images.SetChart (images : Images) (chart : String) : Images :=
  { images with chart := chart }

end pkg

namespace cmd

def getArgumentCountLocal : Nat := 2
def getArgumentCountRelease : Nat := 1

/-- What the argument validator of a command ends in: it returns nil, it
returns an error, or `log.Fatalln` ends the process. -/
inductive Validation where
  | accepted
  | rejected (err : String)
  | exited (msg : String)
  deriving DecidableEq, Repr

/-- The function `minimumArgError`, on the options value `images` and the
positional arguments `args`. -/
def minimumArgError (images : pkg.Images) (args : List String) : Validation :=
  let minArgError := "[RELEASE] or [CHART] cannot be empty"
  let oneOfThemError :=
    "when '--from-release' is enabled, valid input is [RELEASE] and not both [RELEASE] [CHART]"
  if !images.FromRelease then
    if args.length ≠ getArgumentCountLocal then Validation.rejected minArgError
    else Validation.accepted
  else if args.length > getArgumentCountRelease then Validation.exited oneOfThemError
  else Validation.accepted

/-- What the run function of the `get` command ends in: it returns (with the
options value it leaves behind and its error, if any), or an index expression
out of range ends it in a fault. -/
inductive Run where
  | returned (images : pkg.Images) (err : Option String)
  | fault
  deriving DecidableEq, Repr

/-- The `RunE` function of `getImagesCommand`; `GetImages` is the method
`images.GetImages` of the package `pkg`. The index expressions `args[0]` and
`args[1]` fault when out of range. -/
def getImagesCommand.RunE (GetImages : pkg.Images → Option String) (images : pkg.Images)
    (args : List String) : Run :=
  match args.get? 0 with
  | none => Run.fault
  | some release =>
    let images := images.SetRelease release
    let chartSet : Option pkg.Images :=
      if !images.FromRelease then (args.get? 1).map images.SetChart else some images
    match chartSet with
    | none => Run.fault
    | some images =>
      if (images.JSON && images.YAML && images.Table) || (images.JSON && images.YAML) ||
          (images.Table && images.YAML) || (images.Table && images.JSON) then
        Run.returned images (some
          "cannot render the output to multiple format, enable any of '--yaml --json --table' at a time")
      else Run.returned images (GetImages images)

end cmd

namespace k8s

/-- A Grafana manifest of the current API version whose deployment override
and deployment template are present, the template being empty: it has no pod
spec. -/
def emptyTemplateGrafana : Grafana :=
  { Kind := "Grafana", APIVersion := "grafana.integreatly.org/v1beta1", Name := "dashboards",
    Spec := { Deployment := some { Spec := { Template := some { Spec := none } } } } }

/-! ## Lemmas on the loops -/

theorem Slice.append_mk {α : Type} (l xs : List α) :
    Slice.append (Slice.mk l) xs = Slice.mk (l ++ xs) := rfl

theorem getImages_foldl (cs : List Container) (acc : List String) :
    cs.foldl (fun images container => Slice.append images [container.Image]) (Slice.mk acc)
      = Slice.mk (acc ++ cs.map Container.Image) := by
  induction cs generalizing acc with
  | nil => simp
  | cons c cs ih => simp [List.foldl, Slice.append_mk, ih]

theorem getImages_eq (cs : List Container) :
    containers.getImages ⟨cs⟩ = Slice.mk (cs.map Container.Image) := by
  simpa [containers.getImages] using getImages_foldl cs []

theorem envLoop_inner (lib : Lib) (env : List EnvVar) (st : List String × containers) :
    env.foldl
        (fun (st : List String × containers) ev =>
          (st.1 ++ [ev.Name],
            if strings.Contains (strings.ToLower lib.ToLower ev.Name) "image" then
              (⟨st.2.containers ++ [{ Image := ev.Value }]⟩ : containers)
            else st.2))
        st
      = (st.1 ++ env.map EnvVar.Name,
          ⟨st.2.containers ++
            (env.filter (fun ev =>
              strings.Contains (strings.ToLower lib.ToLower ev.Name) "image")).map
              (fun ev => ({ Image := ev.Value } : Container))⟩) := by
  induction env generalizing st with
  | nil => simp
  | cons ev env ih =>
    simp only [List.foldl_cons, ih, List.map_cons, List.filter_cons]
    by_cases h : strings.Contains (strings.ToLower lib.ToLower ev.Name) "image" = true
    · simp [h]
    · simp [h]

theorem envContainers_images (lib : Lib) (cs : List Container) :
    (envContainers lib cs).map Container.Image = imageEnvValues lib cs := by
  induction cs with
  | nil => rfl
  | cons c cs ih => simp [envContainers, imageEnvValues, ih, Function.comp_def]

theorem envLoop_outer (lib : Lib) (cs : List Container) (st : List String × containers) :
    cs.foldl
        (fun (st : List String × containers) container =>
          container.Env.foldl
            (fun (st : List String × containers) ev =>
              (st.1 ++ [ev.Name],
                if strings.Contains (strings.ToLower lib.ToLower ev.Name) "image" then
                  (⟨st.2.containers ++ [{ Image := ev.Value }]⟩ : containers)
                else st.2))
            st)
        st
      = (st.1 ++ envNames cs, ⟨st.2.containers ++ envContainers lib cs⟩) := by
  induction cs generalizing st with
  | nil => simp [envNames, envContainers]
  | cons c cs ih =>
    rw [List.foldl_cons, envLoop_inner, ih]
    simp [envNames, envContainers]

/-- What `Deployments.Get` does on a decoded manifest: the names it prints and
the record it returns. -/
theorem deployments_get_decoded (lib : Lib) (dataMap : String) (dep : Deployments)
    (h : lib.UnmarshalDeployments dataMap = Except.ok (some dep)) :
    Deployments.Get lib dataMap =
      ⟨envNames dep.Spec.Template.Spec.Containers,
        Result.ok ⟨KindDeployment, dep.Name,
          Slice.mk (dep.Spec.Template.Spec.Containers.map Container.Image
            ++ dep.Spec.Template.Spec.InitContainers.map Container.Image
            ++ imageEnvValues lib dep.Spec.Template.Spec.Containers)⟩⟩ := by
  simp only [Deployments.Get, h, envLoop_outer, getImages_eq, List.map_append,
    envContainers_images, List.nil_append]

theorem imageEnvValues_eq_nil (lib : Lib) (cs : List Container)
    (h : ∀ c ∈ cs, ∀ ev ∈ c.Env,
      strings.Contains (strings.ToLower lib.ToLower ev.Name) "image" = false) :
    imageEnvValues lib cs = [] := by
  induction cs with
  | nil => rfl
  | cons c cs ih =>
    have h1 : c.Env.filter
        (fun ev => strings.Contains (strings.ToLower lib.ToLower ev.Name) "image") = [] := by
      rw [List.filter_eq_nil_iff]
      intro ev hev
      simp [h c (List.mem_cons_self _ _) ev hev]
    simp only [imageEnvValues, h1, List.map_nil, List.nil_append]
    exact ih (fun c' hc' => h c' (List.mem_cons_of_mem _ hc'))

theorem mem_imageEnvValues (lib : Lib) (cs : List Container) (c : Container) (ev : EnvVar)
    (hc : c ∈ cs) (hev : ev ∈ c.Env)
    (hname : strings.Contains (strings.ToLower lib.ToLower ev.Name) "image" = true) :
    ev.Value ∈ imageEnvValues lib cs := by
  induction cs with
  | nil => cases hc
  | cons c' cs ih =>
    simp only [imageEnvValues, List.mem_append, List.mem_map, List.mem_filter]
    rcases List.mem_cons.1 hc with rfl | hc
    · exact Or.inl ⟨ev, ⟨hev, hname⟩, rfl⟩
    · exact Or.inr (ih hc)

/-! ## Properties -/

/-- C1: on a decoded Deployment with primary containers `C` and init-containers
`I`, `Deployments.Get` returns the record whose image list is the images of `C`
in order, then the images of `I` in order, then the values of the image-like
environment variables of the containers of `C`, in container and declaration
order; containers `[a, b]` with init-containers `[c]` and no such variable
give exactly the images of `a`, `b`, `c`. -/
theorem deployments_get_flattening_order (lib : Lib) (dataMap : String) (dep : Deployments)
    (h : lib.UnmarshalDeployments dataMap = Except.ok (some dep)) :
    (Deployments.Get lib dataMap).ret =
        Result.ok ⟨KindDeployment, dep.Name,
          Slice.mk (dep.Spec.Template.Spec.Containers.map Container.Image
            ++ dep.Spec.Template.Spec.InitContainers.map Container.Image
            ++ imageEnvValues lib dep.Spec.Template.Spec.Containers)⟩ ∧
      ∀ a b c : Container,
        dep.Spec.Template.Spec.Containers = [a, b] →
        dep.Spec.Template.Spec.InitContainers = [c] →
        (∀ ev ∈ a.Env ++ b.Env,
          strings.Contains (strings.ToLower lib.ToLower ev.Name) "image" = false) →
        (Deployments.Get lib dataMap).ret =
          Result.ok ⟨KindDeployment, dep.Name, Slice.mk [a.Image, b.Image, c.Image]⟩ := by
  refine ⟨by rw [deployments_get_decoded lib dataMap dep h], ?_⟩
  intro a b c hC hI hno
  have hnil : imageEnvValues lib [a, b] = [] := by
    apply imageEnvValues_eq_nil
    intro x hx ev hev
    apply hno ev
    rcases List.mem_cons.1 hx with rfl | hx
    · exact List.mem_append_left _ hev
    · rcases List.mem_cons.1 hx with rfl | hx
      · exact List.mem_append_right _ hev
      · cases hx
  rw [deployments_get_decoded lib dataMap dep h, hC, hI, hnil]
  rfl

/-- C1, at the Deployment `web`: containers `a` (declaring `SIDECAR_IMAGE`)
and `b`, init-container `c`. -/
theorem deployments_get_flattening_order_witness :
    webLib.UnmarshalDeployments "web.yaml" = Except.ok (some webDeployment) ∧
      (Deployments.Get webLib "web.yaml").ret =
        Result.ok ⟨"Deployment", "web", Slice.mk ["a", "b", "c", "s"]⟩ :=
  ⟨rfl, (deployments_get_flattening_order webLib "web.yaml" webDeployment rfl).1.trans rfl⟩

/-- C2, as stated, fails. The Deployment `job` has the primary container `main`
and the init-container `setup`, which declares `HELPER_IMAGE=helper`:
`Deployments.Get` returns the images `app` and `busybox` only, so the value of
an image-like variable of an init-container is not in the image list. -/
theorem deployments_get_init_env_not_collected :
    (initEnvLib.UnmarshalDeployments "job.yaml" = Except.ok (some initEnvDeployment) ∧
      initEnvDeployment.Spec.Template.Spec.InitContainers =
        [{ Name := "setup", Image := "busybox",
           Env := [{ Name := "HELPER_IMAGE", Value := "helper" }] }] ∧
      strings.Contains (strings.ToLower initEnvLib.ToLower "HELPER_IMAGE") "image" = true ∧
      (Deployments.Get initEnvLib "job.yaml").ret =
        Result.ok ⟨"Deployment", "job", Slice.mk ["app", "busybox"]⟩ ∧
      "helper" ∉ (Slice.mk ["app", "busybox"]).toList) ∧
    ¬ (∀ (lib : Lib) (dataMap : String) (dep : Deployments),
        lib.UnmarshalDeployments dataMap = Except.ok (some dep) →
        ∀ c ∈ dep.Spec.Template.Spec.Containers ++ dep.Spec.Template.Spec.InitContainers,
        ∀ ev ∈ c.Env,
          strings.Contains (strings.ToLower lib.ToLower ev.Name) "image" = true →
          ∃ img, (Deployments.Get lib dataMap).ret = Result.ok img ∧
            ev.Value ∈ img.Image.toList) := by
  refine ⟨⟨rfl, rfl, by decide, by decide, by decide⟩, ?_⟩
  intro hall
  obtain ⟨img, himg, hmem⟩ :=
    hall initEnvLib "job.yaml" initEnvDeployment rfl
      { Name := "setup", Image := "busybox", Env := [{ Name := "HELPER_IMAGE", Value := "helper" }] }
      (by decide) { Name := "HELPER_IMAGE", Value := "helper" } (by decide) (by decide)
  have hret : (Deployments.Get initEnvLib "job.yaml").ret =
      Result.ok ⟨"Deployment", "job", Slice.mk ["app", "busybox"]⟩ := by decide
  rw [hret] at himg
  cases himg
  revert hmem
  decide

/-- C2, amended: on a decoded Deployment, for every primary container and
every environment variable of it whose lower-cased name contains `image`,
`Deployments.Get` succeeds and the value of the variable is in the returned
image list. -/
theorem deployments_get_collects_container_env (lib : Lib) (dataMap : String)
    (dep : Deployments) (h : lib.UnmarshalDeployments dataMap = Except.ok (some dep))
    (c : Container) (hc : c ∈ dep.Spec.Template.Spec.Containers)
    (ev : EnvVar) (hev : ev ∈ c.Env)
    (hname : strings.Contains (strings.ToLower lib.ToLower ev.Name) "image" = true) :
    ∃ img, (Deployments.Get lib dataMap).ret = Result.ok img ∧ ev.Value ∈ img.Image.toList := by
  refine ⟨_, by rw [deployments_get_decoded lib dataMap dep h], ?_⟩
  simp only [Slice.toList, List.mem_append]
  exact Or.inr (mem_imageEnvValues lib _ c ev hc hev hname)

/-- C2, amended, at the Deployment `web`: the value `s` of `SIDECAR_IMAGE`,
declared by the primary container `a`, is collected. -/
theorem deployments_get_collects_container_env_witness :
    ∃ img, (Deployments.Get webLib "web.yaml").ret = Result.ok img ∧
      "s" ∈ img.Image.toList :=
  deployments_get_collects_container_env webLib "web.yaml" webDeployment rfl
    { Name := "a", Image := "a",
      Env := [{ Name := "SIDECAR_IMAGE", Value := "s" }, { Name := "PATH", Value := "/bin" }] }
    (by decide) { Name := "SIDECAR_IMAGE", Value := "s" } (by decide) (by decide)

theorem configMapLoop (lib : Lib) (l : List (String × String)) (acc : containers) :
    l.foldl
        (fun (cmContainers : containers) kv =>
          if strings.Contains (strings.ToLower lib.ToLower kv.1) "image" then
            (⟨cmContainers.containers ++ [{ Image := kv.2 }]⟩ : containers)
          else cmContainers)
        acc
      = ⟨acc.containers ++
          (l.filter (fun kv => strings.Contains (strings.ToLower lib.ToLower kv.1) "image")).map
            (fun kv => ({ Image := kv.2 } : Container))⟩ := by
  induction l generalizing acc with
  | nil => simp
  | cons kv l ih =>
    simp only [List.foldl_cons, ih, List.filter_cons]
    by_cases h : strings.Contains (strings.ToLower lib.ToLower kv.1) "image" = true
    · simp [h]
    · simp [h]

/-- What `ConfigMap.Get` returns on a decoded manifest, for the iteration
order `r`. -/
theorem configmap_get_decoded (lib : Lib) (r : MapRange) (dataMap : String) (cm : ConfigMap)
    (h : lib.UnmarshalConfigMap dataMap = Except.ok (some cm)) :
    ConfigMap.Get lib r dataMap =
      ⟨[], Result.ok ⟨KindConfigMap, cm.Name,
        Slice.mk (((r.order cm.Data).filter
          (fun kv => strings.Contains (strings.ToLower lib.ToLower kv.1) "image")).map
            Prod.snd)⟩⟩ := by
  simp only [ConfigMap.Get, h, configMapLoop, getImages_eq, List.nil_append, List.map_map]
  rfl

/-- C3: on a decoded ConfigMap, whatever the order in which the data map is
walked, `ConfigMap.Get` returns an image list that holds exactly the values of
the entries whose lower-cased key contains `image`, one element per such
entry, so that its length is the number of such keys; for the data
`{"image-a": "x", "other": "y", "IMAGE_B": "z"}` it holds `x` and `z` and
not `y`. -/
theorem configmap_get_image_keys (lib : Lib) (r : MapRange) (dataMap : String)
    (cm : ConfigMap) (h : lib.UnmarshalConfigMap dataMap = Except.ok (some cm)) :
    ∃ images : List String,
      (ConfigMap.Get lib r dataMap).ret = Result.ok ⟨KindConfigMap, cm.Name, Slice.mk images⟩ ∧
      images.Perm ((cm.Data.entries.filter
        (fun kv => strings.Contains (strings.ToLower lib.ToLower kv.1) "image")).map Prod.snd) ∧
      images.length = (cm.Data.keys.filter
        (fun k => strings.Contains (strings.ToLower lib.ToLower k) "image")).length ∧
      (cm.Data.entries = [("image-a", "x"), ("other", "y"), ("IMAGE_B", "z")] →
        "x" ∈ images ∧ "z" ∈ images ∧ "y" ∉ images) := by
  have hperm : (((r.order cm.Data).filter
      (fun kv => strings.Contains (strings.ToLower lib.ToLower kv.1) "image")).map Prod.snd).Perm
      ((cm.Data.entries.filter
        (fun kv => strings.Contains (strings.ToLower lib.ToLower kv.1) "image")).map Prod.snd) :=
    ((r.perm cm.Data).filter _).map _
  refine ⟨_, by rw [configmap_get_decoded lib r dataMap cm h], hperm, ?_, ?_⟩
  · rw [hperm.length_eq, GoMap.keys, List.filter_map, List.length_map, List.length_map]
    rfl
  · intro hdata
    rw [hdata] at hperm
    have hlist : (([("image-a", "x"), ("other", "y"), ("IMAGE_B", "z")] :
        List (String × String)).filter
        (fun kv => strings.Contains (strings.ToLower lib.ToLower kv.1) "image")).map Prod.snd
        = ["x", "z"] := rfl
    rw [hlist] at hperm
    refine ⟨hperm.mem_iff.2 (by decide), hperm.mem_iff.2 (by decide), ?_⟩
    intro hy
    exact absurd (hperm.mem_iff.1 hy) (by decide)

/-- C3, at the ConfigMap `settings`, walked in reverse order. -/
theorem configmap_get_image_keys_witness :
    settingsLib.UnmarshalConfigMap "settings.yaml" = Except.ok (some settingsConfigMap) ∧
      (ConfigMap.Get settingsLib MapRange.reversed "settings.yaml").ret =
        Result.ok ⟨"ConfigMap", "settings", Slice.mk ["z", "x"]⟩ ∧
      ∃ images : List String,
        (ConfigMap.Get settingsLib MapRange.reversed "settings.yaml").ret =
          Result.ok ⟨KindConfigMap, settingsConfigMap.Name, Slice.mk images⟩ ∧
        images.Perm ((settingsConfigMap.Data.entries.filter
          (fun kv => strings.Contains (strings.ToLower settingsLib.ToLower kv.1) "image")).map
            Prod.snd) ∧
        images.length = (settingsConfigMap.Data.keys.filter
          (fun k => strings.Contains (strings.ToLower settingsLib.ToLower k) "image")).length ∧
        (settingsConfigMap.Data.entries = [("image-a", "x"), ("other", "y"), ("IMAGE_B", "z")] →
          "x" ∈ images ∧ "z" ∈ images ∧ "y" ∉ images) :=
  ⟨rfl, by decide,
    configmap_get_image_keys settingsLib MapRange.reversed "settings.yaml" settingsConfigMap rfl⟩

/-- C4: on a decoded composite Thanos manifest in which all four sub-component
overrides are present, `Thanos.Get` returns the images of the rule override
(containers, then init-containers), then of the query override, then of the
store-gateway override, then of the query-frontend override. -/
theorem thanos_get_concatenation (lib : Lib) (dataMap : String) (dep : Thanos)
    (h : lib.UnmarshalThanos dataMap = Except.ok (some dep))
    (rule : Rule) (ro : typeoverride.StatefulSet)
    (query : Query) (qo : typeoverride.Deployment)
    (store : StoreGateway) (so : typeoverride.Deployment)
    (front : QueryFrontend) (fo : typeoverride.Deployment)
    (hrule : dep.Spec.Rule = some rule) (hro : rule.StatefulsetOverrides = some ro)
    (hquery : dep.Spec.Query = some query) (hqo : query.DeploymentOverrides = some qo)
    (hstore : dep.Spec.StoreGateway = some store) (hso : store.DeploymentOverrides = some so)
    (hfront : dep.Spec.QueryFrontend = some front) (hfo : front.DeploymentOverrides = some fo) :
    (Thanos.Get lib dataMap).ret =
      Result.ok ⟨KindThanos, dep.Name,
        Slice.mk (ro.Spec.Template.Spec.Containers.map Container.Image
          ++ ro.Spec.Template.Spec.InitContainers.map Container.Image
          ++ qo.Spec.Template.Spec.Containers.map Container.Image
          ++ qo.Spec.Template.Spec.InitContainers.map Container.Image
          ++ so.Spec.Template.Spec.Containers.map Container.Image
          ++ so.Spec.Template.Spec.InitContainers.map Container.Image
          ++ fo.Spec.Template.Spec.Containers.map Container.Image
          ++ fo.Spec.Template.Spec.InitContainers.map Container.Image)⟩ := by
  simp only [Thanos.Get, h, hrule, hro, hquery, hqo, hstore, hso, hfront, hfo, Option.some_bind,
    getImages_eq, List.nil_append, List.map_append]

/-- C4, at the manifest `fullThanos`. -/
theorem thanos_get_concatenation_witness :
    (thanosLib fullThanos).UnmarshalThanos "thanos.yaml" = Except.ok (some fullThanos) ∧
      (Thanos.Get (thanosLib fullThanos) "thanos.yaml").ret =
        Result.ok ⟨"Thanos", "thanos",
          Slice.mk ["r1", "r2", "ri", "q1", "qi", "s1", "si", "f1", "fi"]⟩ :=
  ⟨rfl, (thanos_get_concatenation (thanosLib fullThanos) "thanos.yaml" fullThanos rfl
    _ _ _ _ _ _ _ _ rfl rfl rfl rfl rfl rfl rfl rfl).trans rfl⟩

/-- C5, the code at the failing inputs: on a composite Thanos manifest in which
exactly one sub-component is populated (with one container), whichever of the
four it is, `Thanos.Get` ends in a nil-pointer fault instead of returning that
one image. -/
theorem thanos_get_single_component_faults :
    (Thanos.Get (thanosLib ruleOnlyThanos) "thanos.yaml").ret = Result.fault ∧
    (Thanos.Get (thanosLib queryOnlyThanos) "thanos.yaml").ret = Result.fault ∧
    (Thanos.Get (thanosLib storeOnlyThanos) "thanos.yaml").ret = Result.fault ∧
    (Thanos.Get (thanosLib frontendOnlyThanos) "thanos.yaml").ret = Result.fault := by
  decide

/-- C6, as stated, fails. The Grafana manifest `emptyTemplateGrafana` has a
current apiVersion and its deployment template is present, but the template
has no pod spec: reading the containers dereferences the nil pod spec and
`Grafana.Get` ends in a fault instead of succeeding. -/
theorem grafana_get_empty_template_faults :
    ((grafanaLib emptyTemplateGrafana).UnmarshalGrafana "grafana.yaml"
        = Except.ok (some emptyTemplateGrafana) ∧
      emptyTemplateGrafana.APIVersion ≠ "integreatly.org/v1alpha1" ∧
      emptyTemplateGrafana.Spec.Deployment = some { Spec := { Template := some { Spec := none } } } ∧
      (Grafana.Get (grafanaLib emptyTemplateGrafana) "grafana.yaml").ret = Result.fault) ∧
    ¬ (∀ (lib : Lib) (dataMap : String) (dep : Grafana) (d : DeploymentV1)
        (t : DeploymentV1PodTemplateSpec),
        lib.UnmarshalGrafana dataMap = Except.ok (some dep) →
        dep.APIVersion ≠ "integreatly.org/v1alpha1" →
        dep.Spec.Deployment = some d → d.Spec.Template = some t →
        ∃ img, (Grafana.Get lib dataMap).ret = Result.ok img) := by
  refine ⟨⟨rfl, by decide, rfl, by decide⟩, ?_⟩
  intro hall
  obtain ⟨img, himg⟩ :=
    hall (grafanaLib emptyTemplateGrafana) "grafana.yaml" emptyTemplateGrafana
      { Spec := { Template := some { Spec := none } } } { Spec := none } rfl (by decide) rfl rfl
  have hret : (Grafana.Get (grafanaLib emptyTemplateGrafana) "grafana.yaml").ret
      = Result.fault := by decide
  rw [hret] at himg
  cases himg

/-- What `Grafana.Get` returns on a decoded manifest. -/
theorem grafana_get_decoded (lib : Lib) (dataMap : String) (dep : Grafana)
    (h : lib.UnmarshalGrafana dataMap = Except.ok (some dep)) :
    Grafana.Get lib dataMap =
      if dep.APIVersion = "integreatly.org/v1alpha1" then
        ⟨[], Result.err (Error.GrafanaAPIVersionSupportError
          ("plugin supports the latest api version and '" ++ dep.APIVersion
            ++ "' is not supported"))⟩
      else
        match (dep.Spec.Deployment.bind (fun d => d.Spec.Template)).bind (fun t => t.Spec) with
        | none => ⟨[], Result.fault⟩
        | some ps =>
          ⟨[], Result.ok ⟨KindGrafana, dep.Name,
            Slice.mk (ps.Containers.map Container.Image
              ++ ps.InitContainers.map Container.Image)⟩⟩ := by
  simp only [Grafana.Get, h, getImages_eq, List.map_append]

/-- C6, amended: on a decoded Grafana manifest, `Grafana.Get` returns the
unsupported-API-version error (and no record) exactly when the apiVersion is
`integreatly.org/v1alpha1`, whatever the other fields hold; for any other
apiVersion, with the deployment override, its template and the pod spec of
that template all present, it returns the container images of the pod spec
followed by its init-container images. -/
theorem grafana_get_api_version (lib : Lib) (dataMap : String) (dep : Grafana)
    (h : lib.UnmarshalGrafana dataMap = Except.ok (some dep)) :
    ((∃ m, (Grafana.Get lib dataMap).ret = Result.err (Error.GrafanaAPIVersionSupportError m))
        ↔ dep.APIVersion = "integreatly.org/v1alpha1") ∧
      (∀ (d : DeploymentV1) (t : DeploymentV1PodTemplateSpec) (ps : DeploymentV1PodSpec),
        dep.APIVersion ≠ "integreatly.org/v1alpha1" →
        dep.Spec.Deployment = some d → d.Spec.Template = some t → t.Spec = some ps →
        (Grafana.Get lib dataMap).ret =
          Result.ok ⟨KindGrafana, dep.Name,
            Slice.mk (ps.Containers.map Container.Image
              ++ ps.InitContainers.map Container.Image)⟩) := by
  rw [grafana_get_decoded lib dataMap dep h]
  constructor
  · constructor
    · rintro ⟨m, hm⟩
      by_contra hne
      rw [if_neg hne] at hm
      split at hm <;> cases hm
    · intro heq
      rw [if_pos heq]
      exact ⟨_, rfl⟩
  · intro d t ps hne hd ht hps
    rw [if_neg hne, hd, Option.some_bind, ht, Option.some_bind, hps]

/-- C6, amended, at a legacy and at a current Grafana manifest with the same
nested deployment template and pod spec. -/
theorem grafana_get_api_version_witness :
    (grafanaLib (grafanaManifest "integreatly.org/v1alpha1")).UnmarshalGrafana "grafana.yaml"
        = Except.ok (some (grafanaManifest "integreatly.org/v1alpha1")) ∧
      (∃ m, (Grafana.Get (grafanaLib (grafanaManifest "integreatly.org/v1alpha1"))
        "grafana.yaml").ret = Result.err (Error.GrafanaAPIVersionSupportError m)) ∧
      (Grafana.Get (grafanaLib (grafanaManifest "grafana.integreatly.org/v1beta1"))
        "grafana.yaml").ret =
          Result.ok ⟨"Grafana", "dashboards", Slice.mk ["grafana:10", "plugins:1"]⟩ :=
  ⟨rfl,
    (grafana_get_api_version (grafanaLib (grafanaManifest "integreatly.org/v1alpha1"))
      "grafana.yaml" (grafanaManifest "integreatly.org/v1alpha1") rfl).1.2 rfl,
    ((grafana_get_api_version (grafanaLib (grafanaManifest "grafana.integreatly.org/v1beta1"))
      "grafana.yaml" (grafanaManifest "grafana.integreatly.org/v1beta1") rfl).2
        _ _ _ (by decide) rfl rfl rfl).trans rfl⟩

theorem lookup_of_mem {β : Type} (k : String) (v : β) :
    ∀ (l : List (String × β)), (l.map Prod.fst).Nodup → (k, v) ∈ l → l.lookup k = some v
  | [], _, h => by cases h
  | (k', v') :: l, hnd, h => by
    rw [List.map_cons, List.nodup_cons] at hnd
    rcases List.mem_cons.1 h with heq | hmem
    · cases heq
      simp [List.lookup]
    · have hne : k ≠ k' := by
        rintro rfl
        exact hnd.1 (List.mem_map.2 ⟨(k, v), hmem, rfl⟩)
      have hbeq : (k == k') = false := by simpa using hne
      simp only [List.lookup, hbeq]
      exact lookup_of_mem k v l hnd.2 hmem

theorem GoMap.index_of_mem (m : GoMap Value) (k : String) (v : Value)
    (h : (k, v) ∈ m.entries) : m.index k = v := by
  simp [GoMap.index, GoMap.find, lookup_of_mem k v m.entries m.nodup h]

/-- C7: on a decoded top-level mapping whose `kind` entry is the string `s`,
`Kind.Get` returns exactly `s`, unchanged, and no error. -/
theorem kind_get_verbatim (lib : Lib) (dataMap : String) (kindYaml : Kind) (s : String)
    (h : lib.UnmarshalKind dataMap = Except.ok kindYaml)
    (hkind : ("kind", Value.string s) ∈ kindYaml.entries) :
    Kind.Get lib dataMap = (s, none) := by
  have hlen : kindYaml.len ≠ 0 := by
    intro h0
    have hnil : kindYaml.entries = [] := List.length_eq_zero.1 h0
    rw [hnil] at hkind
    cases hkind
  simp [Kind.Get, h, hlen, kubeKind, GoMap.index_of_mem kindYaml "kind" _ hkind,
    Value.assertString]

/-- C7, at mappings whose `kind` is an unsupported tag with blanks and mixed
case, and whose `kind` is the empty string. -/
theorem kind_get_verbatim_witness :
    (kindLib [("apiVersion", Value.string "v1"), ("kind", Value.string " deployMENT ")]).UnmarshalKind
        "doc.yaml"
      = Except.ok ⟨[("apiVersion", Value.string "v1"), ("kind", Value.string " deployMENT ")],
          by decide⟩ ∧
    Kind.Get (kindLib [("apiVersion", Value.string "v1"), ("kind", Value.string " deployMENT ")])
        "doc.yaml" = (" deployMENT ", none) ∧
    " deployMENT " ∉ SupportedKinds ∧
    Kind.Get (kindLib [("kind", Value.string "")]) "doc.yaml" = ("", none) :=
  ⟨rfl,
    kind_get_verbatim
      (kindLib [("apiVersion", Value.string "v1"), ("kind", Value.string " deployMENT ")])
      "doc.yaml" ⟨[("apiVersion", Value.string "v1"), ("kind", Value.string " deployMENT ")],
        by decide⟩ " deployMENT " rfl (by simp),
    by decide,
    kind_get_verbatim (kindLib [("kind", Value.string "")]) "doc.yaml"
      ⟨[("kind", Value.string "")], by decide⟩ "" rfl (by simp)⟩

/-- C8: on a document that decodes to a mapping with no top-level key,
`Kind.Get` returns the empty kind and no error. -/
theorem kind_get_empty_mapping (lib : Lib) (dataMap : String) (kindYaml : Kind)
    (h : lib.UnmarshalKind dataMap = Except.ok kindYaml) (hempty : kindYaml.entries = []) :
    Kind.Get lib dataMap = ("", none) := by
  simp [Kind.Get, h, GoMap.len, hempty]

/-- C8, at a document decoding to the mapping without entries. -/
theorem kind_get_empty_mapping_witness :
    (kindLib []).UnmarshalKind "---" = Except.ok GoMap.empty ∧
      Kind.Get (kindLib []) "---" = ("", none) :=
  ⟨rfl, kind_get_empty_mapping (kindLib []) "---" GoMap.empty rfl rfl⟩

/-- C9: on a decoded top-level mapping whose `kind` entry is present but is not
a string, `Kind.Get` returns the empty kind together with the `ImageError`
saying that `kind` is not of type string. -/
theorem kind_get_type_mismatch (lib : Lib) (dataMap : String) (kindYaml : Kind) (v : Value)
    (h : lib.UnmarshalKind dataMap = Except.ok kindYaml)
    (hkind : ("kind", v) ∈ kindYaml.entries) (hv : ∀ s, v ≠ Value.string s) :
    Kind.Get lib dataMap =
      ("", some (Error.ImageError
        "failed to get name from the manifest, 'kind' is not type string")) := by
  have hlen : kindYaml.len ≠ 0 := by
    intro h0
    have hnil : kindYaml.entries = [] := List.length_eq_zero.1 h0
    rw [hnil] at hkind
    cases hkind
  cases v with
  | string s => exact absurd rfl (hv s)
  | null => simp [Kind.Get, h, hlen, kubeKind, GoMap.index_of_mem kindYaml "kind" _ hkind,
      Value.assertString]
  | bool b => simp [Kind.Get, h, hlen, kubeKind, GoMap.index_of_mem kindYaml "kind" _ hkind,
      Value.assertString]
  | number q => simp [Kind.Get, h, hlen, kubeKind, GoMap.index_of_mem kindYaml "kind" _ hkind,
      Value.assertString]
  | array xs => simp [Kind.Get, h, hlen, kubeKind, GoMap.index_of_mem kindYaml "kind" _ hkind,
      Value.assertString]
  | object kvs => simp [Kind.Get, h, hlen, kubeKind, GoMap.index_of_mem kindYaml "kind" _ hkind,
      Value.assertString]

/-- C9, at the document `kind: 5`. -/
theorem kind_get_type_mismatch_witness :
    (kindLib [("kind", Value.number 5)]).UnmarshalKind "kind: 5"
        = Except.ok ⟨[("kind", Value.number 5)], by decide⟩ ∧
      Kind.Get (kindLib [("kind", Value.number 5)]) "kind: 5" =
        ("", some (Error.ImageError
          "failed to get name from the manifest, 'kind' is not type string")) :=
  ⟨rfl, kind_get_type_mismatch (kindLib [("kind", Value.number 5)]) "kind: 5"
    ⟨[("kind", Value.number 5)], by decide⟩ (Value.number 5) rfl (by simp)
    (fun s hs => by cases hs)⟩

/-- The `Kind` field of the record a successful `Get` returns, extractor by
extractor. -/
theorem get_kind_of_ok (lib : Lib) (r : MapRange) (x : ImagesInterface)
    (dataMap : String) (img : Image) (h : (x.Get lib r dataMap).ret = Result.ok img) :
    img.Kind = x.canonicalKind := by
  cases x <;> simp only [ImagesInterface.Get, k8s.Deployments.Get, k8s.ConfigMap.Get,
    k8s.StatefulSets.Get, k8s.DaemonSets.Get, k8s.ReplicaSets.Get, k8s.CronJob.Get, k8s.Job.Get,
    k8s.Pod.Get, k8s.AlertManager.Get, k8s.Prometheus.Get, k8s.ThanosRuler.Get, k8s.Grafana.Get,
    k8s.Thanos.Get, k8s.ThanosReceiver.Get] at h <;>
  (repeat' split at h) <;>
  first
    | (cases h; rfl)
    | cases h

/-- C10: whenever the `Get` of one of the fourteen extractors succeeds, the
`Kind` of the returned record is the canonical tag of that extractor, whatever
the manifest says; the tag is not empty, it is listed by `SupportedKinds`, no
other extractor has it, and `SupportedKinds` lists fourteen pairwise different
strings. -/
theorem get_kind_is_canonical_tag (lib : Lib) (r : MapRange) (x : ImagesInterface)
    (dataMap : String) (img : Image) (h : (x.Get lib r dataMap).ret = Result.ok img) :
    img.Kind = x.canonicalKind ∧
      x.canonicalKind ≠ "" ∧
      x.canonicalKind ∈ SupportedKinds ∧
      (∀ y : ImagesInterface, y.canonicalKind = x.canonicalKind → y = x) ∧
      SupportedKinds.Nodup ∧
      SupportedKinds.length = 14 := by
  refine ⟨get_kind_of_ok lib r x dataMap img h, ?_, ?_, ?_, by decide, by decide⟩
  · cases x <;> decide
  · cases x <;> decide
  · intro y hy
    cases x <;> cases y <;> first | rfl | (revert hy; decide)

/-- C10, at a Grafana manifest whose written `kind` is `Dashboard`. -/
theorem get_kind_is_canonical_tag_witness :
    (ImagesInterface.Get
        (grafanaLib { grafanaManifest "grafana.integreatly.org/v1beta1" with Kind := "Dashboard" })
        MapRange.listed NewGrafana "grafana.yaml").ret =
      Result.ok ⟨"Grafana", "dashboards", Slice.mk ["grafana:10", "plugins:1"]⟩ ∧
    "Grafana" ∈ SupportedKinds :=
  ⟨by decide,
    (get_kind_is_canonical_tag
      (grafanaLib { grafanaManifest "grafana.integreatly.org/v1beta1" with Kind := "Dashboard" })
      MapRange.listed NewGrafana "grafana.yaml"
      ⟨"Grafana", "dashboards", Slice.mk ["grafana:10", "plugins:1"]⟩ (by decide)).2.2.1⟩

/-- C11: on a decoded StatefulSet, DaemonSet, ReplicaSet, Job or Pod manifest,
and on a decoded CronJob manifest (the pod spec of its nested job template),
`Get` returns the images of the primary containers in order followed by the
images of the init-containers in order, and nothing else: the list has as
many elements as there are containers and init-containers, whatever the
environment variables are. -/
theorem workload_get_containers_then_init (lib : Lib) (dataMap : String) :
    (∀ dep : StatefulSets, lib.UnmarshalStatefulSets dataMap = Except.ok (some dep) →
      ∃ images, (StatefulSets.Get lib dataMap).ret
          = Result.ok ⟨KindStatefulSet, dep.Name, Slice.mk images⟩ ∧
        images = dep.Spec.Template.Spec.Containers.map Container.Image
          ++ dep.Spec.Template.Spec.InitContainers.map Container.Image ∧
        images.length = dep.Spec.Template.Spec.Containers.length
          + dep.Spec.Template.Spec.InitContainers.length) ∧
    (∀ dep : DaemonSets, lib.UnmarshalDaemonSets dataMap = Except.ok (some dep) →
      ∃ images, (DaemonSets.Get lib dataMap).ret
          = Result.ok ⟨KindDaemonSet, dep.Name, Slice.mk images⟩ ∧
        images = dep.Spec.Template.Spec.Containers.map Container.Image
          ++ dep.Spec.Template.Spec.InitContainers.map Container.Image ∧
        images.length = dep.Spec.Template.Spec.Containers.length
          + dep.Spec.Template.Spec.InitContainers.length) ∧
    (∀ dep : ReplicaSets, lib.UnmarshalReplicaSets dataMap = Except.ok (some dep) →
      ∃ images, (ReplicaSets.Get lib dataMap).ret
          = Result.ok ⟨KindReplicaSet, dep.Name, Slice.mk images⟩ ∧
        images = dep.Spec.Template.Spec.Containers.map Container.Image
          ++ dep.Spec.Template.Spec.InitContainers.map Container.Image ∧
        images.length = dep.Spec.Template.Spec.Containers.length
          + dep.Spec.Template.Spec.InitContainers.length) ∧
    (∀ dep : Job, lib.UnmarshalJob dataMap = Except.ok (some dep) →
      ∃ images, (Job.Get lib dataMap).ret
          = Result.ok ⟨KindJob, dep.Name, Slice.mk images⟩ ∧
        images = dep.Spec.Template.Spec.Containers.map Container.Image
          ++ dep.Spec.Template.Spec.InitContainers.map Container.Image ∧
        images.length = dep.Spec.Template.Spec.Containers.length
          + dep.Spec.Template.Spec.InitContainers.length) ∧
    (∀ dep : Pod, lib.UnmarshalPod dataMap = Except.ok (some dep) →
      ∃ images, (Pod.Get lib dataMap).ret
          = Result.ok ⟨KindPod, dep.Name, Slice.mk images⟩ ∧
        images = dep.Spec.Containers.map Container.Image
          ++ dep.Spec.InitContainers.map Container.Image ∧
        images.length = dep.Spec.Containers.length + dep.Spec.InitContainers.length) ∧
    (∀ dep : CronJob, lib.UnmarshalCronJob dataMap = Except.ok (some dep) →
      ∃ images, (CronJob.Get lib dataMap).ret
          = Result.ok ⟨KindCronJob, dep.Name, Slice.mk images⟩ ∧
        images = dep.Spec.JobTemplate.Spec.Template.Spec.Containers.map Container.Image
          ++ dep.Spec.JobTemplate.Spec.Template.Spec.InitContainers.map Container.Image ∧
        images.length = dep.Spec.JobTemplate.Spec.Template.Spec.Containers.length
          + dep.Spec.JobTemplate.Spec.Template.Spec.InitContainers.length) := by
  refine ⟨?_, ?_, ?_, ?_, ?_, ?_⟩ <;> intro dep h
  · exact ⟨_, by simp only [StatefulSets.Get, h, getImages_eq, List.map_append], rfl, by simp⟩
  · exact ⟨_, by simp only [DaemonSets.Get, h, getImages_eq, List.map_append], rfl, by simp⟩
  · exact ⟨_, by simp only [ReplicaSets.Get, h, getImages_eq, List.map_append], rfl, by simp⟩
  · exact ⟨_, by simp only [Job.Get, h, getImages_eq, List.map_append], rfl, by simp⟩
  · exact ⟨_, by simp only [Pod.Get, h, getImages_eq, List.map_append], rfl, by simp⟩
  · exact ⟨_, by simp only [CronJob.Get, h, getImages_eq, List.map_append], rfl, by simp⟩

/-- C11, at the six `worker` manifests: the value `hidden:9` of the variable
`IMAGE_TAG` is in none of the lists. -/
theorem workload_get_containers_then_init_witness :
    (StatefulSets.Get workerLib "worker.yaml").ret
        = Result.ok ⟨"StatefulSet", "worker", Slice.mk ["app:1", "proxy:2", "migrate:3"]⟩ ∧
    (DaemonSets.Get workerLib "worker.yaml").ret
        = Result.ok ⟨"DaemonSet", "worker", Slice.mk ["app:1", "proxy:2", "migrate:3"]⟩ ∧
    (ReplicaSets.Get workerLib "worker.yaml").ret
        = Result.ok ⟨"ReplicaSet", "worker", Slice.mk ["app:1", "proxy:2", "migrate:3"]⟩ ∧
    (Job.Get workerLib "worker.yaml").ret
        = Result.ok ⟨"Job", "worker", Slice.mk ["app:1", "proxy:2", "migrate:3"]⟩ ∧
    (Pod.Get workerLib "worker.yaml").ret
        = Result.ok ⟨"Pod", "worker", Slice.mk ["app:1", "proxy:2", "migrate:3"]⟩ ∧
    (CronJob.Get workerLib "worker.yaml").ret
        = Result.ok ⟨"CronJob", "worker", Slice.mk ["app:1", "proxy:2", "migrate:3"]⟩ := by
  have hall := workload_get_containers_then_init workerLib "worker.yaml"
  obtain ⟨i1, h1, e1, -⟩ := hall.1 _ rfl
  obtain ⟨i2, h2, e2, -⟩ := hall.2.1 _ rfl
  obtain ⟨i3, h3, e3, -⟩ := hall.2.2.1 _ rfl
  obtain ⟨i4, h4, e4, -⟩ := hall.2.2.2.1 _ rfl
  obtain ⟨i5, h5, e5, -⟩ := hall.2.2.2.2.1 _ rfl
  obtain ⟨i6, h6, e6, -⟩ := hall.2.2.2.2.2 _ rfl
  subst e1 e2 e3 e4 e5 e6
  exact ⟨h1, h2, h3, h4, h5, h6⟩

theorem Slice.nil_append_append {α : Type} (l : List α) (x : α) :
    (Slice.append (Slice.append Slice.nil l) [x]) = Slice.mk (l ++ [x]) := by
  cases l <;> rfl

/-- C12: on a decoded Prometheus manifest whose top-level image is present,
and on every decoded ThanosRuler manifest, `Get` returns the container images
in order, then the init-container images in order, then the top-level image
as last element: one element more than there are containers and
init-containers, and never the empty list. -/
theorem monitoring_get_image_last (lib : Lib) (dataMap : String) :
    (∀ (dep : Prometheus) (image : String),
      lib.UnmarshalPrometheus dataMap = Except.ok (some dep) → dep.Spec.Image = some image →
      ∃ images, (Prometheus.Get lib dataMap).ret
          = Result.ok ⟨monitoringV1.PrometheusesKind, dep.Name, Slice.mk images⟩ ∧
        images = dep.Spec.Containers.map Container.Image
          ++ dep.Spec.InitContainers.map Container.Image ++ [image] ∧
        images.getLast? = some image ∧
        images.length = dep.Spec.Containers.length + dep.Spec.InitContainers.length + 1 ∧
        images ≠ []) ∧
    (∀ dep : ThanosRuler, lib.UnmarshalThanosRuler dataMap = Except.ok (some dep) →
      ∃ images, (ThanosRuler.Get lib dataMap).ret
          = Result.ok ⟨monitoringV1.ThanosRulerKind, dep.Name, Slice.mk images⟩ ∧
        images = dep.Spec.Containers.map Container.Image
          ++ dep.Spec.InitContainers.map Container.Image ++ [dep.Spec.Image] ∧
        images.getLast? = some dep.Spec.Image ∧
        images.length = dep.Spec.Containers.length + dep.Spec.InitContainers.length + 1 ∧
        images ≠ []) := by
  constructor
  · intro dep image h himage
    refine ⟨_, ?_, rfl, by simp, by simp [Nat.add_assoc], by simp⟩
    simp only [Prometheus.Get, h, himage, getImages_eq, Slice.toList, Slice.nil_append_append,
      List.map_append]
  · intro dep h
    refine ⟨_, ?_, rfl, by simp, by simp [Nat.add_assoc], by simp⟩
    simp only [ThanosRuler.Get, h, getImages_eq, Slice.toList, Slice.nil_append_append,
      List.map_append]

/-- C12, at the Prometheus manifest `metrics` with image `prom:v2` and at the
ThanosRuler manifest `ruler`, which has no containers. -/
theorem monitoring_get_image_last_witness :
    (Prometheus.Get (monitoringLib (some "prom:v2")) "metrics.yaml").ret
        = Result.ok ⟨"Prometheus", "metrics", Slice.mk ["sidecar:1", "init:1", "prom:v2"]⟩ ∧
    (ThanosRuler.Get (monitoringLib (some "prom:v2")) "ruler.yaml").ret
        = Result.ok ⟨"ThanosRuler", "ruler", Slice.mk ["thanos:v0.30"]⟩ := by
  obtain ⟨i1, h1, e1, -⟩ :=
    (monitoring_get_image_last (monitoringLib (some "prom:v2")) "metrics.yaml").1
      (prometheusManifest (some "prom:v2")) "prom:v2" rfl rfl
  obtain ⟨i2, h2, e2, -⟩ :=
    (monitoring_get_image_last (monitoringLib (some "prom:v2")) "ruler.yaml").2 rulerManifest rfl
  subst e1 e2
  exact ⟨h1, h2⟩

/-- C13: on a decoded Alertmanager manifest whose top-level image is `v`,
`AlertManager.Get` returns the one-element image list `[v]`, whatever
containers and init-containers the manifest declares. -/
theorem alertmanager_get_single_image (lib : Lib) (dataMap : String) (dep : AlertManager)
    (v : String) (h : lib.UnmarshalAlertManager dataMap = Except.ok (some dep))
    (himage : dep.Spec.Image = some v) :
    (AlertManager.Get lib dataMap).ret
      = Result.ok ⟨monitoringV1.AlertmanagersKind, dep.Name, Slice.mk [v]⟩ := by
  simp only [AlertManager.Get, h, himage]

/-- C13, at the Alertmanager manifest `alerts`, which declares a container and
an init-container. -/
theorem alertmanager_get_single_image_witness :
    (alertmanagerManifest (some "am:v0.27")).Spec.Containers ≠ [] ∧
    (AlertManager.Get (monitoringLib (some "am:v0.27")) "alerts.yaml").ret
      = Result.ok ⟨"Alertmanager", "alerts", Slice.mk ["am:v0.27"]⟩ :=
  ⟨by decide,
    alertmanager_get_single_image (monitoringLib (some "am:v0.27")) "alerts.yaml"
      (alertmanagerManifest (some "am:v0.27")) "am:v0.27" rfl rfl⟩

theorem receiverLoop (gs : List ReceiverGroup) (acc : List Container)
    (hall : ∀ g ∈ gs, ∃ o, g.StatefulSetOverrides = some o) :
    ∃ total : List Container,
      gs.foldl
          (fun (acc : Option (List Container)) (receiverGroup : ReceiverGroup) =>
            match acc, receiverGroup.StatefulSetOverrides with
            | some receiverGroupTotalContainers, some o =>
              some (receiverGroupTotalContainers ++ o.Spec.Template.Spec.Containers
                ++ o.Spec.Template.Spec.InitContainers)
            | _, _ => none)
          (some acc) = some total ∧
      total.map Container.Image = acc.map Container.Image ++ receiverGroupImages gs := by
  induction gs generalizing acc with
  | nil => exact ⟨acc, rfl, by simp [receiverGroupImages]⟩
  | cons g gs ih =>
    obtain ⟨o, ho⟩ := hall g (List.mem_cons_self _ _)
    obtain ⟨total, htotal, himages⟩ :=
      ih (acc ++ o.Spec.Template.Spec.Containers ++ o.Spec.Template.Spec.InitContainers)
        (fun g' hg' => hall g' (List.mem_cons_of_mem _ hg'))
    refine ⟨total, ?_, ?_⟩
    · simp only [List.foldl_cons, ho]
      exact htotal
    · rw [himages]
      simp [receiverGroupImages, ho]

/-- C14: on a decoded Thanos Receiver manifest whose receiver-groups all carry
a statefulset override, `ThanosReceiver.Get` returns, group by group in list
order, the container images of the group followed by its init-container
images; without receiver-groups it returns the empty image list. -/
theorem receiver_get_groups_in_order (lib : Lib) (dataMap : String) (dep : ThanosReceiver)
    (h : lib.UnmarshalThanosReceiver dataMap = Except.ok (some dep))
    (hall : ∀ g ∈ dep.Spec.ReceiverGroups, g.StatefulSetOverrides.isSome = true) :
    (ThanosReceiver.Get lib dataMap).ret =
        Result.ok ⟨KindThanosReceiver, dep.Name,
          Slice.mk (receiverGroupImages dep.Spec.ReceiverGroups)⟩ ∧
      (dep.Spec.ReceiverGroups = [] →
        (ThanosReceiver.Get lib dataMap).ret =
          Result.ok ⟨KindThanosReceiver, dep.Name, Slice.mk []⟩) := by
  obtain ⟨total, htotal, himages⟩ := receiverLoop dep.Spec.ReceiverGroups []
    (fun g hg => Option.isSome_iff_exists.1 (hall g hg))
  have hret : (ThanosReceiver.Get lib dataMap).ret =
      Result.ok ⟨KindThanosReceiver, dep.Name,
        Slice.mk (receiverGroupImages dep.Spec.ReceiverGroups)⟩ := by
    simp only [ThanosReceiver.Get, h, htotal, getImages_eq, himages, List.map_nil,
      List.nil_append]
  refine ⟨hret, ?_⟩
  intro hnil
  rw [hret, hnil]
  rfl

/-- C14, at the Receiver manifest `ingest` with two receiver-groups. -/
theorem receiver_get_groups_in_order_witness :
    (ThanosReceiver.Get (receiverLib receiverManifest) "ingest.yaml").ret =
        Result.ok ⟨"Receiver", "ingest", Slice.mk ["g1", "g1-init", "g2"]⟩ ∧
      (ThanosReceiver.Get (receiverLib { Name := "none" }) "none.yaml").ret =
        Result.ok ⟨"Receiver", "none", Slice.mk []⟩ :=
  ⟨(receiver_get_groups_in_order (receiverLib receiverManifest) "ingest.yaml" receiverManifest
      rfl (by decide)).1.trans rfl,
    (receiver_get_groups_in_order (receiverLib { Name := "none" }) "none.yaml" { Name := "none" }
      rfl (by decide)).2 rfl⟩

/-- C15, the code at the failing inputs: on an Alertmanager manifest and on a
Prometheus manifest without top-level image, `Get` ends in a nil-pointer
fault; it returns neither an error nor a record. -/
theorem monitoring_get_absent_image_faults :
    (alertmanagerManifest none).Spec.Image = none ∧
    (monitoringLib none).UnmarshalAlertManager "alerts.yaml"
      = Except.ok (some (alertmanagerManifest none)) ∧
    (AlertManager.Get (monitoringLib none) "alerts.yaml").ret = Result.fault ∧
    (prometheusManifest none).Spec.Image = none ∧
    (monitoringLib none).UnmarshalPrometheus "metrics.yaml"
      = Except.ok (some (prometheusManifest none)) ∧
    (Prometheus.Get (monitoringLib none) "metrics.yaml").ret = Result.fault :=
  ⟨rfl, rfl, by decide, rfl, rfl, by decide⟩

/-- The extractors other than `Deployments` write nothing to standard error. -/
theorem get_stderr_nil (lib : Lib) (r : MapRange) (x : ImagesInterface) (dataMap : String)
    (hx : x ≠ ImagesInterface.Deployments) : (x.Get lib r dataMap).stderr = [] := by
  cases x <;> first
    | exact absurd rfl hx
    | (simp only [ImagesInterface.Get, k8s.ConfigMap.Get,
        k8s.StatefulSets.Get, k8s.DaemonSets.Get, k8s.ReplicaSets.Get, k8s.CronJob.Get,
        k8s.Job.Get, k8s.Pod.Get, k8s.AlertManager.Get, k8s.Prometheus.Get, k8s.ThanosRuler.Get,
        k8s.Grafana.Get, k8s.Thanos.Get, k8s.ThanosReceiver.Get]
       repeat' split
       all_goals rfl)

/-- C16, the code at the failing input: on the Deployment `web`, whose
container `a` declares the variables `SIDECAR_IMAGE` and `PATH`,
`Deployments.Get` writes both names to standard error. -/
theorem deployments_get_prints_env_names :
    webLib.UnmarshalDeployments "web.yaml" = Except.ok (some webDeployment) ∧
    envNames webDeployment.Spec.Template.Spec.Containers = ["SIDECAR_IMAGE", "PATH"] ∧
    (Deployments.Get webLib "web.yaml").stderr = ["SIDECAR_IMAGE", "PATH"] :=
  ⟨rfl, rfl, by decide⟩

/-- C17, as stated, fails: two calls of `ConfigMap.Get` on the same text of the
ConfigMap `settings`, whose `range` loops walk the data map in different
orders, return the image lists `[x, z]` and `[z, x]`. -/
theorem configmap_get_twice_differs :
    ((ConfigMap.Get settingsLib MapRange.listed "settings.yaml").ret =
        Result.ok ⟨"ConfigMap", "settings", Slice.mk ["x", "z"]⟩ ∧
      (ConfigMap.Get settingsLib MapRange.reversed "settings.yaml").ret =
        Result.ok ⟨"ConfigMap", "settings", Slice.mk ["z", "x"]⟩) ∧
    ¬ (∀ (lib : Lib) (r₁ r₂ : MapRange) (x : ImagesInterface) (dataMap : String),
        (x.Get lib r₁ dataMap).ret = (x.Get lib r₂ dataMap).ret) := by
  refine ⟨⟨by decide, by decide⟩, ?_⟩
  intro hall
  exact absurd
    (hall settingsLib MapRange.listed MapRange.reversed ImagesInterface.ConfigMap "settings.yaml")
    (by decide)

/-- C17, amended: two calls of `Get` on the same text end alike. If one
returns a record, so does the other, with the same `Kind`, the same `Name` and
an image list holding the same elements the same number of times; if one
ends without a record, the other ends in the same way. For every extractor
other than `ConfigMap` the two calls agree in everything, the order of the
images included. -/
theorem get_twice_same_up_to_order (lib : Lib) (r₁ r₂ : MapRange) (x : ImagesInterface)
    (dataMap : String) :
    (x ≠ ImagesInterface.ConfigMap → x.Get lib r₁ dataMap = x.Get lib r₂ dataMap) ∧
      (∀ img₁, (x.Get lib r₁ dataMap).ret = Result.ok img₁ →
        ∃ img₂, (x.Get lib r₂ dataMap).ret = Result.ok img₂ ∧
          img₂.Kind = img₁.Kind ∧ img₂.Name = img₁.Name ∧
          img₂.Image.toList.Perm img₁.Image.toList) ∧
      ((∀ img₁, (x.Get lib r₁ dataMap).ret ≠ Result.ok img₁) →
        (x.Get lib r₂ dataMap).ret = (x.Get lib r₁ dataMap).ret) := by
  by_cases hx : x = ImagesInterface.ConfigMap
  · subst hx
    refine ⟨fun hne => absurd rfl hne, ?_, ?_⟩
    · intro img₁ h₁
      simp only [ImagesInterface.Get] at h₁ ⊢
      cases hdec : lib.UnmarshalConfigMap dataMap with
      | error e => simp [k8s.ConfigMap.Get, hdec] at h₁
      | ok o =>
        cases o with
        | none => simp [k8s.ConfigMap.Get, hdec] at h₁
        | some cm =>
          rw [configmap_get_decoded lib r₁ dataMap cm hdec] at h₁
          rw [configmap_get_decoded lib r₂ dataMap cm hdec]
          cases h₁
          exact ⟨_, rfl, rfl, rfl,
            ((((r₂.perm cm.Data).trans (r₁.perm cm.Data).symm).filter _).map _)⟩
    · intro hno
      simp only [ImagesInterface.Get] at hno ⊢
      cases hdec : lib.UnmarshalConfigMap dataMap with
      | error e => simp [k8s.ConfigMap.Get, hdec]
      | ok o =>
        cases o with
        | none => simp [k8s.ConfigMap.Get, hdec]
        | some cm =>
          rw [configmap_get_decoded lib r₁ dataMap cm hdec] at hno
          exact absurd rfl (hno _)
  · have heq : x.Get lib r₁ dataMap = x.Get lib r₂ dataMap := by
      cases x <;> first | rfl | exact absurd rfl hx
    refine ⟨fun _ => heq, ?_, fun _ => by rw [heq]⟩
    intro img₁ h₁
    exact ⟨img₁, by rw [← heq]; exact h₁, rfl, rfl, List.Perm.refl _⟩

/-- C17, amended, at the ConfigMap `settings` walked in listing order and in
reverse order. -/
theorem get_twice_same_up_to_order_witness :
    ∃ img₂, (ImagesInterface.Get settingsLib MapRange.reversed NewConfigMap "settings.yaml").ret
        = Result.ok img₂ ∧
      img₂.Kind = "ConfigMap" ∧ img₂.Name = "settings" ∧ img₂.Image.toList.Perm ["x", "z"] :=
  (get_twice_same_up_to_order settingsLib MapRange.listed MapRange.reversed NewConfigMap
    "settings.yaml").2.1 ⟨"ConfigMap", "settings", Slice.mk ["x", "z"]⟩ (by decide)

theorem getImages_isNil (c : containers) : c.getImages.isNil = false := by
  cases c
  rw [getImages_eq]
  rfl

theorem Slice.nil_append_append_isNil {α : Type} (l : List α) (x : α) :
    (Slice.append (Slice.append Slice.nil l) [x]).isNil = false := by
  rw [Slice.nil_append_append]
  rfl

/-- The image slice of a record returned by `Get` is never the nil slice. -/
theorem get_image_isNil (lib : Lib) (r : MapRange) (x : ImagesInterface)
    (dataMap : String) (img : Image) (h : (x.Get lib r dataMap).ret = Result.ok img) :
    img.Image.isNil = false := by
  cases x <;> simp only [ImagesInterface.Get, k8s.Deployments.Get, k8s.ConfigMap.Get,
    k8s.StatefulSets.Get, k8s.DaemonSets.Get, k8s.ReplicaSets.Get, k8s.CronJob.Get, k8s.Job.Get,
    k8s.Pod.Get, k8s.AlertManager.Get, k8s.Prometheus.Get, k8s.ThanosRuler.Get, k8s.Grafana.Get,
    k8s.Thanos.Get, k8s.ThanosReceiver.Get] at h <;>
  (repeat' split at h) <;>
  first
    | (cases h; exact getImages_isNil _)
    | (cases h; exact Slice.nil_append_append_isNil _ _)
    | (cases h; rfl)
    | cases h

/-- C18: whenever the `Get` of one of the fourteen extractors succeeds, the
`Image` field of the returned record is an allocated slice, never the nil
slice; when it has no element it is the allocated empty slice. -/
theorem get_image_never_nil (lib : Lib) (r : MapRange) (x : ImagesInterface)
    (dataMap : String) (img : Image) (h : (x.Get lib r dataMap).ret = Result.ok img) :
    img.Image ≠ Slice.nil ∧ img.Image.isNil = false ∧
      (img.Image.len = 0 → img.Image = Slice.mk []) := by
  have hnil := get_image_isNil lib r x dataMap img h
  refine ⟨?_, hnil, ?_⟩
  · intro heq
    rw [heq] at hnil
    cases hnil
  · intro hlen
    cases himg : img.Image with
    | nil => rw [himg] at hnil; cases hnil
    | mk l =>
      rw [himg] at hlen
      have hl : l = [] := List.length_eq_zero.1 hlen
      rw [hl]

/-- C18, at a Deployment without containers, a ConfigMap without data and a
Receiver without receiver-groups. -/
theorem get_image_never_nil_witness :
    (ImagesInterface.Get idleLib MapRange.listed NewDeployment "idle.yaml").ret
        = Result.ok ⟨"Deployment", "idle", Slice.mk []⟩ ∧
      (Slice.mk [] : Slice String) ≠ Slice.nil ∧
      (∀ img, (ImagesInterface.Get
          { Lib.failing with UnmarshalConfigMap := fun _ => Except.ok (some { Name := "void" }) }
          MapRange.listed NewConfigMap "void.yaml").ret = Result.ok img → img.Image ≠ Slice.nil) ∧
      (∀ img, (ImagesInterface.Get (receiverLib { Name := "none" })
          MapRange.listed NewThanosReceiver "none.yaml").ret = Result.ok img →
        img.Image ≠ Slice.nil) :=
  ⟨by decide,
    (get_image_never_nil idleLib MapRange.listed NewDeployment "idle.yaml"
      ⟨"Deployment", "idle", Slice.mk []⟩ (by decide)).1,
    fun img h => (get_image_never_nil _ MapRange.listed NewConfigMap "void.yaml" img h).1,
    fun img h => (get_image_never_nil _ MapRange.listed NewThanosReceiver "none.yaml" img h).1⟩

theorem mem_of_lookup {β : Type} (k : String) (v : β) :
    ∀ (l : List (String × β)), l.lookup k = some v → (k, v) ∈ l
  | [], h => by cases h
  | (k', v') :: l, h => by
    by_cases hk : k = k'
    · subst hk
      simp [List.lookup] at h
      subst h
      exact List.mem_cons_self _ _
    · have hbeq : (k == k') = false := by simpa using hk
      simp only [List.lookup, hbeq] at h
      exact List.mem_cons_of_mem _ (mem_of_lookup k v l h)

theorem lookup_none_of_not_mem {β : Type} (k : String) :
    ∀ (l : List (String × β)), k ∉ l.map Prod.fst → l.lookup k = none
  | [], _ => rfl
  | (k', v') :: l, h => by
    rw [List.map_cons, List.mem_cons, not_or] at h
    have hbeq : (k == k') = false := by simpa using h.1
    simp only [List.lookup, hbeq]
    exact lookup_none_of_not_mem k l h.2

/-- What `Kind.Get` returns on a decoded mapping, by the entry found under
`kind`. -/
theorem kind_get_decoded (lib : Lib) (dataMap : String) (kindYaml : Kind)
    (h : lib.UnmarshalKind dataMap = Except.ok kindYaml) :
    Kind.Get lib dataMap =
      if kindYaml.len = 0 then ("", none)
      else match kindYaml.entries.lookup "kind" with
        | some (Value.string s) => (s, none)
        | _ => ("", some (Error.ImageError
            "failed to get name from the manifest, 'kind' is not type string")) := by
  by_cases hnil : kindYaml.entries = []
  · simp [Kind.Get, h, GoMap.len, hnil]
  · have hlen : kindYaml.len ≠ 0 := fun h0 => hnil (List.length_eq_zero.1 h0)
    rw [if_neg hlen]
    cases hl : kindYaml.entries.lookup "kind" with
    | none => simp [Kind.Get, h, hlen, kubeKind, GoMap.index, GoMap.find, hl, Value.assertString]
    | some v =>
      cases v <;>
        simp [Kind.Get, h, hlen, kubeKind, GoMap.index, GoMap.find, hl, Value.assertString]

/-- C19: on a decoded, non-empty top-level mapping without `kind` key,
`Kind.Get` fails with the same `ImageError` as for a `kind` of the wrong type.
It returns the empty kind without error exactly when the mapping is empty or
its `kind` is the empty string, and it fails exactly when the mapping is
non-empty and its `kind` entry is absent or not a string. -/
theorem kind_get_absent_kind (lib : Lib) (dataMap : String) (kindYaml : Kind)
    (h : lib.UnmarshalKind dataMap = Except.ok kindYaml) :
    (kindYaml.entries ≠ [] → "kind" ∉ kindYaml.keys →
      Kind.Get lib dataMap = ("", some (Error.ImageError
        "failed to get name from the manifest, 'kind' is not type string"))) ∧
    (Kind.Get lib dataMap = ("", none) ↔
      kindYaml.entries = [] ∨ ("kind", Value.string "") ∈ kindYaml.entries) ∧
    ((Kind.Get lib dataMap).2 ≠ none ↔
      kindYaml.entries ≠ [] ∧
        ("kind" ∉ kindYaml.keys ∨
          ∃ v, ("kind", v) ∈ kindYaml.entries ∧ ∀ s, v ≠ Value.string s)) ∧
    ((Kind.Get lib dataMap).2 ≠ none →
      Kind.Get lib dataMap = ("", some (Error.ImageError
        "failed to get name from the manifest, 'kind' is not type string"))) := by
  rw [kind_get_decoded lib dataMap kindYaml h]
  by_cases hnil : kindYaml.entries = []
  · simp [GoMap.len, hnil]
  · have hlen : kindYaml.len ≠ 0 := fun h0 => hnil (List.length_eq_zero.1 h0)
    simp only [if_neg hlen]
    cases hl : kindYaml.entries.lookup "kind" with
    | none =>
      have hno : ∀ v, ("kind", v) ∉ kindYaml.entries := by
        intro v hv
        rw [lookup_of_mem "kind" v kindYaml.entries kindYaml.nodup hv] at hl
        cases hl
      have hkey : "kind" ∉ kindYaml.keys := by
        intro hk
        obtain ⟨⟨k, v⟩, hmem, hfst⟩ := List.mem_map.1 hk
        simp only at hfst
        subst hfst
        exact hno v hmem
      simp [hnil, hno, hkey]
    | some v =>
      have hmem : ("kind", v) ∈ kindYaml.entries := mem_of_lookup "kind" v _ hl
      have hkey : "kind" ∈ kindYaml.keys := List.mem_map.2 ⟨_, hmem, rfl⟩
      have huniq : ∀ w, ("kind", w) ∈ kindYaml.entries → w = v := by
        intro w hw
        have := lookup_of_mem "kind" w kindYaml.entries kindYaml.nodup hw
        rw [hl] at this
        exact (Option.some.inj this).symm
      cases v with
      | string s =>
        refine ⟨fun _ hk => absurd hkey hk, ?_, ?_, ?_⟩
        · constructor
          · intro heq
            have hs : s = "" := congrArg Prod.fst heq
            subst hs
            exact Or.inr hmem
          · rintro (he | hm)
            · exact absurd he hnil
            · have := huniq _ hm
              cases this
              rfl
        · constructor
          · intro hne
            exact absurd rfl hne
          · rintro ⟨-, hk | ⟨w, hw, hws⟩⟩
            · exact absurd hkey hk
            · exact absurd (huniq w hw) (hws s)
        · intro hne
          exact absurd rfl hne
      | null =>
        refine ⟨fun _ _ => rfl, ?_, ?_, fun _ => rfl⟩
        · constructor
          · intro heq
            cases heq
          · rintro (he | hm)
            · exact absurd he hnil
            · cases huniq _ hm
        · exact ⟨fun _ => ⟨hnil, Or.inr ⟨_, hmem, fun s hs => by cases hs⟩⟩, fun _ => by simp⟩
      | bool b =>
        refine ⟨fun _ _ => rfl, ?_, ?_, fun _ => rfl⟩
        · constructor
          · intro heq
            cases heq
          · rintro (he | hm)
            · exact absurd he hnil
            · cases huniq _ hm
        · exact ⟨fun _ => ⟨hnil, Or.inr ⟨_, hmem, fun s hs => by cases hs⟩⟩, fun _ => by simp⟩
      | number q =>
        refine ⟨fun _ _ => rfl, ?_, ?_, fun _ => rfl⟩
        · constructor
          · intro heq
            cases heq
          · rintro (he | hm)
            · exact absurd he hnil
            · cases huniq _ hm
        · exact ⟨fun _ => ⟨hnil, Or.inr ⟨_, hmem, fun s hs => by cases hs⟩⟩, fun _ => by simp⟩
      | array xs =>
        refine ⟨fun _ _ => rfl, ?_, ?_, fun _ => rfl⟩
        · constructor
          · intro heq
            cases heq
          · rintro (he | hm)
            · exact absurd he hnil
            · cases huniq _ hm
        · exact ⟨fun _ => ⟨hnil, Or.inr ⟨_, hmem, fun s hs => by cases hs⟩⟩, fun _ => by simp⟩
      | object kvs =>
        refine ⟨fun _ _ => rfl, ?_, ?_, fun _ => rfl⟩
        · constructor
          · intro heq
            cases heq
          · rintro (he | hm)
            · exact absurd he hnil
            · cases huniq _ hm
        · exact ⟨fun _ => ⟨hnil, Or.inr ⟨_, hmem, fun s hs => by cases hs⟩⟩, fun _ => by simp⟩

/-- C19, at a mapping with `apiVersion` and `metadata` but no `kind`. -/
theorem kind_get_absent_kind_witness :
    Kind.Get (kindLib [("apiVersion", Value.string "v1"), ("metadata", Value.object [])])
        "nokind.yaml" =
      ("", some (Error.ImageError
        "failed to get name from the manifest, 'kind' is not type string")) :=
  (kind_get_absent_kind
    (kindLib [("apiVersion", Value.string "v1"), ("metadata", Value.object [])]) "nokind.yaml"
    ⟨[("apiVersion", Value.string "v1"), ("metadata", Value.object [])], by decide⟩ rfl).1
    (by simp) (by decide)

end k8s

namespace cmd

/-- Among the argument lists the validator accepts, the run function faults on
exactly one: no argument at all, with from-release enabled. -/
theorem runE_fault_iff (GetImages : pkg.Images → Option String) (images : pkg.Images)
    (args : List String) (hacc : minimumArgError images args = Validation.accepted) :
    getImagesCommand.RunE GetImages images args = Run.fault ↔
      images.FromRelease = true ∧ args = [] := by
  cases hfr : images.FromRelease with
  | false =>
    simp only [minimumArgError, hfr, getArgumentCountLocal] at hacc
    match args, hacc with
    | [a, b], _ =>
      simp only [getImagesCommand.RunE, pkg.Images.SetRelease, pkg.Images.SetChart, hfr]
      simp only [List.get?, Bool.not_false, if_true, Option.map_some']
      split <;> simp
    | [], hacc => simp at hacc
    | [_], hacc => simp at hacc
    | _ :: _ :: _ :: _, hacc => simp at hacc
  | true =>
    cases args with
    | nil => simp [getImagesCommand.RunE]
    | cons a as =>
      simp only [getImagesCommand.RunE, pkg.Images.SetRelease, hfr, List.get?, Bool.not_true,
        Bool.false_eq_true, if_false]
      split <;> simp

/-- C20, the code at the failing input: with from-release enabled and no
positional argument, `minimumArgError` accepts the arguments, and the run
function then evaluates `args[0]` out of range. -/
theorem minimumArgError_accepts_no_release :
    minimumArgError { FromRelease := true } [] = Validation.accepted ∧
      ([] : List String).get? 0 = none ∧
      getImagesCommand.RunE (fun _ => none) { FromRelease := true } [] = Run.fault :=
  ⟨by decide, rfl, by decide⟩

end cmd
